import Mathlib

/-!
Verification of the structurizr view-set core (`src/structurizr/view/view_set.py`
and `src/structurizr/model/relationship.py`): the `ViewSet` registry, its
creation methods, hydration from the exchange form, layout copying, and the
stable external field names of the exchange format.

Python dictionaries keyed by view key are embedded as association lists with
first-occurrence lookup and last-write-wins insertion; exceptions are embedded
as `Except PyError`; live object references inside views are embedded by
storing the referenced id after resolution succeeds.
-/

set_option autoImplicit false

namespace Structurizr

/-- Errors raised by the Python code: `ValueError`, the NotFound-style lookup
failures raised by the model accessors, and `KeyError` from `dict` indexing. -/
inductive PyError where
  | valueError (msg : String)
  | notFound (id : String)
  | keyError (key : Option String)
  deriving DecidableEq, Repr

/-- Lookup in a Python `dict` embedded as an association list: the first entry
with the requested key (a real `dict` has at most one). -/
def dictGet {κ α : Type} [DecidableEq κ] : List (κ × α) → κ → Option α
  | [], _ => none
  | p :: rest, k => if p.1 = k then some p.2 else dictGet rest k

/-- Membership test for the embedded `dict` (`key in d`). -/
def dictContains {κ α : Type} [DecidableEq κ] : List (κ × α) → κ → Bool
  | [], _ => false
  | p :: rest, k => if p.1 = k then true else dictContains rest k

/-- Assignment `d[k] = v` on the embedded `dict`: overwrite the value at an
existing key in place, otherwise append the new entry at the end. -/
def dictSet {κ α : Type} [DecidableEq κ] : List (κ × α) → κ → α → List (κ × α)
  | [], k, v => [(k, v)]
  | p :: rest, k, v => if p.1 = k then (p.1, v) :: rest else p :: dictSet rest k v

/-- The interaction style enum of `relationship.py`. -/
inductive InteractionStyle where
  | Synchronous
  | Asynchronous
  deriving DecidableEq, Repr

/-- The seven concrete view classes are pairwise distinct types; the six
non-filtered ones are embedded as a single `View` record tagged by this enum
(the spec lists them as distinct variants of the abstract View). -/
inductive ViewType where
  | systemLandscape
  | systemContext
  | container
  | component
  | deployment
  | dynamic
  deriving DecidableEq, Repr

/-- An `ElementView` entry of a view: an element id, layout coordinates, and
the live element reference (stored as the resolved id) once hydration binds it. -/
structure ElementView where
  id : String
  x : Option Int := none
  y : Option Int := none
  element : Option String := none
  deriving DecidableEq, Repr

/-- A `RelationshipView` entry of a view: a relationship id, layout metadata,
and the live relationship reference (stored as the resolved id) once bound. -/
structure RelationshipView where
  id : String
  position : Option Int := none
  relationship : Option String := none
  deriving DecidableEq, Repr

/-- Modelled from the spec: the scalar fields shared by the six concrete
non-filtered view classes (`view.py` and its subclasses are not part of the
provided sources).  Holds the key, the per-type anchor ids, paper size and the
element/relationship reference lists described in the data model of the spec. -/
structure View where
  vtype : ViewType
  key : Option String
  description : Option String := none
  softwareSystemId : Option String := none
  containerId : Option String := none
  elementId : Option String := none
  paperSize : Option String := none
  elementViews : List ElementView := []
  relationshipViews : List RelationshipView := []
  deriving DecidableEq, Repr

/-- Modelled from the spec: the scalar fields of `FilteredView` (its class is
not part of the provided sources): a key, the key of the base view it filters,
and a filter mode. -/
structure FilteredViewData where
  key : Option String
  baseViewKey : Option String
  mode : Option String := none
  deriving DecidableEq, Repr

/-- A value stored in `ViewSet._views`: either one of the six concrete views or
a filtered view together with its bound base view (`FilteredView.view`, set by
the patch-up phase of `ViewSet.hydrate`). -/
inductive AbstractView where
  | ofView (v : View)
  | ofFiltered (fv : FilteredViewData) (bound : Option AbstractView)

/-- The `key` attribute of any view. -/
def AbstractView.key : AbstractView → Option String
  | .ofView v => v.key
  | .ofFiltered fv _ => fv.key

/-- The observable content of a view for graph-isomorphism claims: its key,
whether it is filtered, its concrete type, and the element/relationship ids it
references.  The live bindings and layout coordinates are not part of it. -/
structure ViewObs where
  key : Option String
  isFilteredView : Bool
  vtype : Option ViewType
  baseViewKey : Option String
  elementIds : List String
  relationshipIds : List String
  deriving DecidableEq, Repr

/-- Project a stored view to its observable content. -/
def AbstractView.obs : AbstractView → ViewObs
  | .ofView v =>
      { key := v.key, isFilteredView := false, vtype := some v.vtype,
        baseViewKey := none,
        elementIds := v.elementViews.map (fun ev => ev.id),
        relationshipIds := v.relationshipViews.map (fun rv => rv.id) }
  | .ofFiltered fv _ =>
      { key := fv.key, isFilteredView := true, vtype := none,
        baseViewKey := fv.baseViewKey, elementIds := [], relationshipIds := [] }

/-- Modelled from the spec: the model as seen by hydration (`model.py` is not
part of the provided sources) — the registered element, software-system and
relationship ids, against which `get_element`, `get_software_system_with_id`
and `get_relationship` resolve, failing with a NotFound error on a dangling id. -/
structure Model where
  elementIds : List String := []
  softwareSystemIds : List String := []
  relationshipIds : List String := []
  deriving DecidableEq, Repr

/-- Modelled from the spec: `get_element(id)` returns the element (embedded as
its id) or fails with NotFound. -/
def Model.get_element (m : Model) (id : String) : Except PyError String :=
  if id ∈ m.elementIds then .ok id else .error (.notFound id)

/-- Modelled from the spec: `get_relationship(id)` returns the relationship
(embedded as its id) or fails with NotFound. -/
def Model.get_relationship (m : Model) (id : String) : Except PyError String :=
  if id ∈ m.relationshipIds then .ok id else .error (.notFound id)

/-- Modelled from the spec: `get_software_system_with_id` resolves a software
system id, failing with NotFound on a dangling or missing id. -/
def Model.get_software_system_with_id (m : Model) (id : Option String) :
    Except PyError String :=
  match id with
  | some i => if i ∈ m.softwareSystemIds then .ok i else .error (.notFound i)
  | none => .error (.notFound "None")

/-- `get_element` applied to a possibly-`None` id, as the hydration code does
for `container_id` and `element_id`. -/
def Model.get_element_opt (m : Model) (id : Option String) : Except PyError String :=
  match id with
  | some i => m.get_element i
  | none => .error (.notFound "None")

/-- Python truthiness of an optional string (`if view_io.element_id`): `None`
and the empty string are falsy. -/
def pyTruthy : Option String → Bool
  | none => false
  | some s => s ≠ ""

/-- The serialized record of an `ElementView` (id and layout only, no live
reference). -/
structure ElementViewIo where
  id : String
  x : Option Int := none
  y : Option Int := none
  deriving DecidableEq, Repr

/-- The serialized record of a `RelationshipView`. -/
structure RelationshipViewIo where
  id : String
  position : Option Int := none
  deriving DecidableEq, Repr

/-- The serialized record of a concrete non-filtered view: scalar fields plus
id-referencing element/relationship entries. -/
structure ViewIo where
  key : Option String
  description : Option String := none
  softwareSystemId : Option String := none
  containerId : Option String := none
  elementId : Option String := none
  paperSize : Option String := none
  elementViews : List ElementViewIo := []
  relationshipViews : List RelationshipViewIo := []
  deriving DecidableEq, Repr

/-- The serialized record of a `FilteredView`. -/
structure FilteredViewIo where
  key : Option String
  baseViewKey : Option String
  mode : Option String := none
  deriving DecidableEq, Repr

/-- `ViewSetIO` of `view_set.py`: one list per view type.  The external alias
of each field is fixed by `ViewSetIo.serialize` below. -/
structure ViewSetIo where
  systemLandscapeViews : List ViewIo := []
  systemContextViews : List ViewIo := []
  containerViews : List ViewIo := []
  componentViews : List ViewIo := []
  deploymentViews : List ViewIo := []
  dynamicViews : List ViewIo := []
  filteredViews : List FilteredViewIo := []
  deriving DecidableEq, Repr

/-- `ViewSet`: the `_views` dict mapping view key to view, plus the model
back-reference set by `set_model` (the configuration record plays no role in
the claims and is omitted). -/
structure ViewSet where
  views_map : List (Option String × AbstractView)
  model : Option Model := none

/-- Sequence a fallible function over a list, aborting on the first raised
error — the shape of every `for` loop in `ViewSet.hydrate` (each iteration may
raise an exception, which propagates). -/
def mapE {α β : Type} (f : α → Except PyError β) : List α → Except PyError (List β)
  | [] => .ok []
  | x :: xs =>
    match f x with
    | .error e => .error e
    | .ok y =>
      match mapE f xs with
      | .error e => .error e
      | .ok ys => .ok (y :: ys)

/-- The dict comprehension `{view.key: view for view in all_views}`. -/
def buildDict (views : List AbstractView) : List (Option String × AbstractView) :=
  views.foldl (fun d v => dictSet d v.key v) []

/-- The chained iteration of `ViewSet.__init__` (`itertools.chain`), in source
order: system-landscape first, filtered last. -/
def all_views_chain (system_landscape_views system_context_views container_views
    component_views deployment_views dynamic_views : List View)
    (filtered_views : List FilteredViewData) : List AbstractView :=
  system_landscape_views.map AbstractView.ofView ++
    system_context_views.map AbstractView.ofView ++
    container_views.map AbstractView.ofView ++
    component_views.map AbstractView.ofView ++
    deployment_views.map AbstractView.ofView ++
    dynamic_views.map AbstractView.ofView ++
    filtered_views.map (fun fv => AbstractView.ofFiltered fv none)

/-- `ViewSet.__init__`: build `_views` from the chained typed iterables with no
key-uniqueness or non-emptiness check, and bind the model reference. -/
def ViewSet.init (model : Option Model)
    (system_landscape_views system_context_views container_views
      component_views deployment_views dynamic_views : List View)
    (filtered_views : List FilteredViewData) : ViewSet :=
  { views_map := buildDict (all_views_chain system_landscape_views
      system_context_views container_views component_views deployment_views
      dynamic_views filtered_views),
    model := model }

/-- All the views in the set (`ViewSet.views`, the dict values). -/
def ViewSet.views (vs : ViewSet) : List AbstractView :=
  vs.views_map.map (fun p => p.2)

/-- `ViewSet._get_typed_views`: the stored views of one concrete type, in dict
order. -/
def ViewSet.get_typed_views (vs : ViewSet) (view_type : ViewType) : List View :=
  vs.views.filterMap (fun av =>
    match av with
    | .ofView v => if v.vtype = view_type then some v else none
    | .ofFiltered _ _ => none)

/-- The `system_landscape_views` property. -/
def ViewSet.system_landscape_views (vs : ViewSet) : List View :=
  vs.get_typed_views ViewType.systemLandscape

/-- The `system_context_views` property. -/
def ViewSet.system_context_views (vs : ViewSet) : List View :=
  vs.get_typed_views ViewType.systemContext

/-- The `container_views` property. -/
def ViewSet.container_views (vs : ViewSet) : List View :=
  vs.get_typed_views ViewType.container

/-- The `component_views` property. -/
def ViewSet.component_views (vs : ViewSet) : List View :=
  vs.get_typed_views ViewType.component

/-- The `deployment_views` property. -/
def ViewSet.deployment_views (vs : ViewSet) : List View :=
  vs.get_typed_views ViewType.deployment

/-- The `dynamic_views` property. -/
def ViewSet.dynamic_views (vs : ViewSet) : List View :=
  vs.get_typed_views ViewType.dynamic

/-- The `filtered_views` property: each stored filtered view with its bound
base view. -/
def ViewSet.filtered_views (vs : ViewSet) : List (FilteredViewData × Option AbstractView) :=
  vs.views.filterMap (fun av =>
    match av with
    | .ofView _ => none
    | .ofFiltered fv bound => some (fv, bound))

/-- `ViewSet.get_view`: return the view with the given key, or `None`; it
never raises. -/
def ViewSet.get_view (vs : ViewSet) (key : Option String) : Option AbstractView :=
  dictGet vs.views_map key

/-- `ViewSet.__getitem__`: return the view with the given key or raise a
`KeyError`. -/
def ViewSet.getitem (vs : ViewSet) (key : Option String) : Except PyError AbstractView :=
  match dictGet vs.views_map key with
  | some view => .ok view
  | none => .error (.keyError key)

/-- `ViewSet._ensure_key_is_specific_and_unique`: raise `ValueError` when the
key is `None` or empty, or already present in `_views`. -/
def ViewSet.ensure_key_is_specific_and_unique (vs : ViewSet) (key : Option String) :
    Except PyError Unit :=
  if key = none ∨ key = some "" then
    .error (.valueError "A key must be specified.")
  else if dictContains vs.views_map key then
    .error (.valueError ("View already exists in workspace with key " ++
      (match key with | some s => s | none => "None") ++ "."))
  else
    .ok ()

/-- `ViewSet._add_view`: `self._views[view.key] = view`. -/
def ViewSet.add_view (vs : ViewSet) (view : AbstractView) : ViewSet :=
  { vs with views_map := dictSet vs.views_map view.key view }

/-- `ViewSet.create_system_landscape_view` for a given view instance: check the
key, then store and return the view (the `set_viewset` back-reference is not
observable in this embedding). -/
def ViewSet.create_system_landscape_view (vs : ViewSet) (system_landscape_view : View) :
    Except PyError (ViewSet × View) :=
  match vs.ensure_key_is_specific_and_unique system_landscape_view.key with
  | .error e => .error e
  | .ok _ => .ok (vs.add_view (AbstractView.ofView system_landscape_view),
      system_landscape_view)

/-- `ViewSet.create_system_context_view`. -/
def ViewSet.create_system_context_view (vs : ViewSet) (system_context_view : View) :
    Except PyError (ViewSet × View) :=
  match vs.ensure_key_is_specific_and_unique system_context_view.key with
  | .error e => .error e
  | .ok _ => .ok (vs.add_view (AbstractView.ofView system_context_view),
      system_context_view)

/-- `ViewSet.create_container_view`. -/
def ViewSet.create_container_view (vs : ViewSet) (container_view : View) :
    Except PyError (ViewSet × View) :=
  match vs.ensure_key_is_specific_and_unique container_view.key with
  | .error e => .error e
  | .ok _ => .ok (vs.add_view (AbstractView.ofView container_view), container_view)

/-- `ViewSet.create_component_view`. -/
def ViewSet.create_component_view (vs : ViewSet) (component_view : View) :
    Except PyError (ViewSet × View) :=
  match vs.ensure_key_is_specific_and_unique component_view.key with
  | .error e => .error e
  | .ok _ => .ok (vs.add_view (AbstractView.ofView component_view), component_view)

/-- `ViewSet.create_deployment_view` (its extra `set_model` call only binds the
unobservable back-reference). -/
def ViewSet.create_deployment_view (vs : ViewSet) (deployment_view : View) :
    Except PyError (ViewSet × View) :=
  match vs.ensure_key_is_specific_and_unique deployment_view.key with
  | .error e => .error e
  | .ok _ => .ok (vs.add_view (AbstractView.ofView deployment_view), deployment_view)

/-- `ViewSet.create_dynamic_view`. -/
def ViewSet.create_dynamic_view (vs : ViewSet) (dynamic_view : View) :
    Except PyError (ViewSet × View) :=
  match vs.ensure_key_is_specific_and_unique dynamic_view.key with
  | .error e => .error e
  | .ok _ => .ok (vs.add_view (AbstractView.ofView dynamic_view), dynamic_view)

/-- `ViewSet.create_filtered_view`. -/
def ViewSet.create_filtered_view (vs : ViewSet) (filtered_view : FilteredViewData) :
    Except PyError (ViewSet × FilteredViewData) :=
  match vs.ensure_key_is_specific_and_unique filtered_view.key with
  | .error e => .error e
  | .ok _ => .ok (vs.add_view (AbstractView.ofFiltered filtered_view none),
      filtered_view)

/-- The state the caller observes after a create call: the new set on success,
the unchanged receiver when the call raised. -/
def run_create {β : Type} (vs : ViewSet) (r : Except PyError (ViewSet × β)) : ViewSet :=
  match r with
  | .ok (vs2, _) => vs2
  | .error _ => vs

/-- Modelled from the spec: the per-view `hydrate` classmethods of the view
subclasses (their files are not part of the provided sources) reconstruct the
view shell from the scalar fields of its record. -/
def viewFromIo (vt : ViewType) (view_io : ViewIo) : View :=
  { vtype := vt, key := view_io.key, description := view_io.description,
    softwareSystemId := view_io.softwareSystemId,
    containerId := view_io.containerId, elementId := view_io.elementId,
    paperSize := view_io.paperSize,
    elementViews := view_io.elementViews.map (fun ev =>
      { id := ev.id, x := ev.x, y := ev.y }),
    relationshipViews := view_io.relationshipViews.map (fun rv =>
      { id := rv.id, position := rv.position }) }

/-- `FilteredView.hydrate`: reconstruct the filtered-view shell. -/
def FilteredViewData.hydrate (view_io : FilteredViewIo) : FilteredViewData :=
  { key := view_io.key, baseViewKey := view_io.baseViewKey, mode := view_io.mode }

/-- `ViewSet._hydrate_view`: resolve every `ElementView` id with `get_element`
and every `RelationshipView` id with `get_relationship`, binding the live
reference; a dangling id raises NotFound out of the loop. -/
def ViewSet.hydrate_view (view : View) (model : Model) : Except PyError View :=
  match mapE (fun element_view =>
      match model.get_element element_view.id with
      | .error e => .error e
      | .ok element => .ok { element_view with element := some element })
      view.elementViews with
  | .error e => .error e
  | .ok element_views =>
    match mapE (fun relationship_view =>
        match model.get_relationship relationship_view.id with
        | .error e => .error e
        | .ok relationship =>
            .ok { relationship_view with relationship := some relationship })
        view.relationshipViews with
    | .error e => .error e
    | .ok relationship_views =>
        .ok { view with
                elementViews := element_views,
                relationshipViews := relationship_views }

/-- The part of `ViewSet.hydrate` before the filtered-view patch-up: hydrate
each typed list in source order (resolving the per-type anchor ids first) and
construct the set through `ViewSet.__init__`. -/
def ViewSet.hydrate_pre (views : ViewSetIo) (model : Model) : Except PyError ViewSet :=
  match mapE (fun view_io =>
      ViewSet.hydrate_view (viewFromIo ViewType.systemLandscape view_io) model)
      views.systemLandscapeViews with
  | .error e => .error e
  | .ok system_landscape_views =>
    match mapE (fun view_io =>
        match model.get_software_system_with_id view_io.softwareSystemId with
        | .error e => .error e
        | .ok _ =>
            ViewSet.hydrate_view (viewFromIo ViewType.systemContext view_io) model)
        views.systemContextViews with
    | .error e => .error e
    | .ok system_context_views =>
      match mapE (fun view_io =>
          match model.get_software_system_with_id view_io.softwareSystemId with
          | .error e => .error e
          | .ok _ =>
              ViewSet.hydrate_view (viewFromIo ViewType.container view_io) model)
          views.containerViews with
      | .error e => .error e
      | .ok container_views =>
        match mapE (fun view_io =>
            match model.get_element_opt view_io.containerId with
            | .error e => .error e
            | .ok _ =>
                ViewSet.hydrate_view (viewFromIo ViewType.component view_io) model)
            views.componentViews with
        | .error e => .error e
        | .ok component_views =>
          match mapE (fun view_io =>
              ViewSet.hydrate_view (viewFromIo ViewType.deployment view_io) model)
              views.deploymentViews with
          | .error e => .error e
          | .ok deployment_views =>
            match mapE (fun view_io =>
                if pyTruthy view_io.elementId then
                  match model.get_element_opt view_io.elementId with
                  | .error e => .error e
                  | .ok _ =>
                      ViewSet.hydrate_view (viewFromIo ViewType.dynamic view_io) model
                else
                  ViewSet.hydrate_view (viewFromIo ViewType.dynamic view_io) model)
                views.dynamicViews with
            | .error e => .error e
            | .ok dynamic_views =>
                .ok (ViewSet.init (some model) system_landscape_views
                  system_context_views container_views component_views
                  deployment_views dynamic_views
                  (views.filteredViews.map FilteredViewData.hydrate))

/-- The filtered-view patch-up loop of `ViewSet.hydrate`: walk the dict entries
in order; at each filtered view, look up its `base_view_key` in the current
dict (`result[...]`, raising `KeyError` when absent) and bind the live base
view.  `done` is the already-walked prefix with its patches applied. -/
def patchLoop : List (Option String × AbstractView) →
    List (Option String × AbstractView) →
    Except PyError (List (Option String × AbstractView))
  | done, [] => .ok done
  | done, (k, v) :: rest =>
    match v with
    | .ofFiltered fv _ =>
      match dictGet (done ++ (k, v) :: rest) fv.baseViewKey with
      | some base =>
          patchLoop (done ++ [(k, AbstractView.ofFiltered fv (some base))]) rest
      | none => .error (.keyError fv.baseViewKey)
    | .ofView _ => patchLoop (done ++ [(k, v)]) rest

/-- `ViewSet.hydrate`: hydrate every typed list, build the set, then patch up
the filtered views against the already-hydrated set. -/
def ViewSet.hydrate (views : ViewSetIo) (model : Model) : Except PyError ViewSet :=
  match ViewSet.hydrate_pre views model with
  | .error e => .error e
  | .ok result =>
    match patchLoop [] result.views_map with
    | .error e => .error e
    | .ok patched => .ok { result with views_map := patched }

/-- Modelled from the spec: serializing a view emits a record holding only its
scalar fields and the referenced ids, never the live references. -/
def viewToIo (v : View) : ViewIo :=
  { key := v.key, description := v.description,
    softwareSystemId := v.softwareSystemId, containerId := v.containerId,
    elementId := v.elementId, paperSize := v.paperSize,
    elementViews := v.elementViews.map (fun ev =>
      { id := ev.id, x := ev.x, y := ev.y }),
    relationshipViews := v.relationshipViews.map (fun rv =>
      { id := rv.id, position := rv.position }) }

/-- Modelled from the spec: serializing a filtered view emits its key, base
view key and mode. -/
def filteredToIo (fv : FilteredViewData) : FilteredViewIo :=
  { key := fv.key, baseViewKey := fv.baseViewKey, mode := fv.mode }

/-- Modelled from the spec: serializing a `ViewSet` walks all its views and
emits one id-referencing record list per view type. -/
def ViewSet.serialize (vs : ViewSet) : ViewSetIo :=
  { systemLandscapeViews := (vs.get_typed_views ViewType.systemLandscape).map viewToIo,
    systemContextViews := (vs.get_typed_views ViewType.systemContext).map viewToIo,
    containerViews := (vs.get_typed_views ViewType.container).map viewToIo,
    componentViews := (vs.get_typed_views ViewType.component).map viewToIo,
    deploymentViews := (vs.get_typed_views ViewType.deployment).map viewToIo,
    dynamicViews := (vs.get_typed_views ViewType.dynamic).map viewToIo,
    filteredViews := vs.filtered_views.map (fun p => filteredToIo p.1) }

/-- `Relationship` of `relationship.py`: a model item with source/destination
element references and ids, description, technology, interaction style and an
optional linked-relationship id (live element references embedded as ids). -/
structure Relationship where
  id : String := ""
  source : Option String := none
  source_id : Option String := some ""
  destination : Option String := none
  destination_id : Option String := some ""
  description : Option String := some ""
  technology : Option String := some ""
  interaction_style : Option InteractionStyle := some InteractionStyle.Synchronous
  linked_relationship_id : Option String := some ""
  deriving DecidableEq, Repr

/-- A JSON-like exchange value, to state which external key each serialized
field is emitted under. -/
inductive Json where
  | null
  | str (s : String)
  | arr (xs : List Json)
  | obj (fields : List (String × Json))
  deriving Repr

/-- Serialize an optional string field. -/
def optStr : Option String → Json
  | none => Json.null
  | some s => Json.str s

/-- The external spelling of an interaction style. -/
def InteractionStyle.value : InteractionStyle → String
  | .Synchronous => "Synchronous"
  | .Asynchronous => "Asynchronous"

/-- Serialization of a `Relationship` by external alias, transcribing the
`Field(..., alias=...)` declarations of `relationship.py`: each internal
attribute is emitted under its declared external key, and the live
source/destination references are not emitted. -/
def Relationship.serialize (r : Relationship) : List (String × Json) :=
  [("id", Json.str r.id),
    ("sourceId", optStr r.source_id),
    ("destinationId", optStr r.destination_id),
    ("description", optStr r.description),
    ("technology", optStr r.technology),
    ("interactionStyle",
      match r.interaction_style with
      | none => Json.null
      | some style => Json.str style.value),
    ("linkedRelationshipId", optStr r.linked_relationship_id)]

/-- Serialize one view record (scalar fields and id lists). -/
def ViewIo.toJson (v : ViewIo) : Json :=
  Json.obj
    [("key", optStr v.key),
      ("description", optStr v.description),
      ("softwareSystemId", optStr v.softwareSystemId),
      ("containerId", optStr v.containerId),
      ("elementId", optStr v.elementId),
      ("paperSize", optStr v.paperSize),
      ("elements", Json.arr (v.elementViews.map (fun ev => Json.obj
        [("id", Json.str ev.id)]))),
      ("relationships", Json.arr (v.relationshipViews.map (fun rv => Json.obj
        [("id", Json.str rv.id)])))]

/-- Serialize one filtered-view record. -/
def FilteredViewIo.toJson (fv : FilteredViewIo) : Json :=
  Json.obj
    [("key", optStr fv.key),
      ("baseViewKey", optStr fv.baseViewKey),
      ("mode", optStr fv.mode)]

/-- Serialization of `ViewSetIO` by external alias, transcribing the
`Field(..., alias=...)` declarations of `view_set.py`: each per-type view list
is emitted under its declared external key. -/
def ViewSetIo.serialize (views : ViewSetIo) : List (String × Json) :=
  [("systemLandscapeViews", Json.arr (views.systemLandscapeViews.map ViewIo.toJson)),
    ("systemContextViews", Json.arr (views.systemContextViews.map ViewIo.toJson)),
    ("containerViews", Json.arr (views.containerViews.map ViewIo.toJson)),
    ("componentViews", Json.arr (views.componentViews.map ViewIo.toJson)),
    ("deploymentViews", Json.arr (views.deploymentViews.map ViewIo.toJson)),
    ("dynamicViews", Json.arr (views.dynamicViews.map ViewIo.toJson)),
    ("filteredViews", Json.arr (views.filteredViews.map FilteredViewIo.toJson))]

/-- Modelled from the spec: `View.copy_layout_information_from` copies
positional and layout metadata only — the paper size and, entry by entry
matched on id, the element/relationship layout fields — never the key, the
type, or the membership lists (`view.py` is not part of the provided sources). -/
def View.copy_layout_information_from (view source : View) : View :=
  { view with
      paperSize := source.paperSize,
      elementViews := view.elementViews.map (fun ev =>
        match source.elementViews.find? (fun sev => decide (sev.id = ev.id)) with
        | some sev => { ev with x := sev.x, y := sev.y }
        | none => ev),
      relationshipViews := view.relationshipViews.map (fun rv =>
        match source.relationshipViews.find? (fun srv => decide (srv.id = rv.id)) with
        | some srv => { rv with position := srv.position }
        | none => rv) }

/-- The guard of `ViewSet.copy_layout_information_from`: the destination is a
concrete (non-filtered) view of exactly the type of the source view
(`isinstance(destination_view, View) and type(destination_view) is
type(source_view)`). -/
def layout_copy_applies : AbstractView → AbstractView → Bool
  | .ofView destination_view, .ofView source_view =>
      decide (destination_view.vtype = source_view.vtype)
  | _, _ => false

/-- The layout copy applied to a matching pair of stored views. -/
def apply_layout_copy : AbstractView → AbstractView → AbstractView
  | .ofView destination_view, .ofView source_view =>
      .ofView (destination_view.copy_layout_information_from source_view)
  | destination_view, _ => destination_view

/-- `ViewSet.copy_layout_information_from`: for every view of the source set,
look its key up in this set and, when the guard holds, copy the layout
information into the stored view. -/
def ViewSet.copy_layout_information_from (vs source : ViewSet) : ViewSet :=
  { vs with
      views_map := source.views.foldl (fun d source_view =>
        match dictGet d source_view.key with
        | some destination_view =>
            if layout_copy_applies destination_view source_view then
              dictSet d source_view.key
                (apply_layout_copy destination_view source_view)
            else d
        | none => d) vs.views_map }

/-- The invariant an actual Python `dict` `_views` always satisfies: every
entry is keyed by the own key of its view, and keys are not repeated. -/
def dictWF (d : List (Option String × AbstractView)) : Prop :=
  (∀ p ∈ d, p.2.key = p.1) ∧ (d.map (fun p => p.1)).Nodup

instance dictWF_decidable (d : List (Option String × AbstractView)) :
    Decidable (dictWF d) :=
  inferInstanceAs (Decidable ((∀ p ∈ d, p.2.key = p.1) ∧
    (d.map (fun p : Option String × AbstractView => p.1)).Nodup))

/-- All ids referenced by a stored view resolve in the given model, including
the per-type anchor id its hydration phase resolves. -/
def view_refs_resolve (m : Model) : AbstractView → Bool
  | .ofView v =>
      v.elementViews.all (fun ev => decide (ev.id ∈ m.elementIds)) &&
      v.relationshipViews.all (fun rv => decide (rv.id ∈ m.relationshipIds)) &&
      (match v.vtype with
        | .systemContext =>
            match v.softwareSystemId with
            | some i => decide (i ∈ m.softwareSystemIds)
            | none => false
        | .container =>
            match v.softwareSystemId with
            | some i => decide (i ∈ m.softwareSystemIds)
            | none => false
        | .component =>
            match v.containerId with
            | some i => decide (i ∈ m.elementIds)
            | none => false
        | .dynamic =>
            match v.elementId with
            | some i => if i ≠ "" then decide (i ∈ m.elementIds) else true
            | none => true
        | _ => true)
  | .ofFiltered _ _ => true

/-- The base key of a stored filtered view is present among the keys of the set. -/
def filtered_base_ok (vs : ViewSet) : AbstractView → Bool
  | .ofFiltered fv _ => dictContains vs.views_map fv.baseViewKey
  | .ofView _ => true

/-- What one serialize/hydrate round trip makes of a concrete view: layout and
ids survive verbatim, and every reference is re-bound to the model element or
relationship carrying its id. -/
def roundtrip_view (v : View) : View :=
  { v with
      elementViews := v.elementViews.map (fun ev =>
        { id := ev.id, x := ev.x, y := ev.y, element := some ev.id }),
      relationshipViews := v.relationshipViews.map (fun rv =>
        { id := rv.id, position := rv.position, relationship := some rv.id }) }

/-- What one round trip makes of any stored view (filtered views come back as
unbound shells before the patch-up phase). -/
def roundtrip_abstract : AbstractView → AbstractView
  | .ofView v => .ofView (roundtrip_view v)
  | .ofFiltered fv _ => .ofFiltered fv none

/-- The stored view is a concrete view of the given type. -/
def is_view_of_type (vt : ViewType) : AbstractView → Bool
  | .ofView v => decide (v.vtype = vt)
  | .ofFiltered _ _ => false

/-- The stored view is a filtered view. -/
def is_filtered_view : AbstractView → Bool
  | .ofView _ => false
  | .ofFiltered _ _ => true

/-- The view a dict comprehension keeps for a key: the last view carrying that
key in iteration order. -/
def last_with_key (views : List AbstractView) (k : Option String) : Option AbstractView :=
  views.reverse.find? (fun v => decide (v.key = k))

/-- Concrete sample: a system-landscape view. -/
def sampleLandscapeView : View :=
  { vtype := ViewType.systemLandscape, key := some "landscape-1" }

/-- Concrete sample: a one-view set used by witnesses. -/
def sampleSet : ViewSet :=
  { views_map := [(some "landscape-1", AbstractView.ofView sampleLandscapeView)] }

/-- Concrete sample: a view with no key. -/
def viewNoKey : View := { vtype := ViewType.container, key := none }

/-- Concrete sample: a filtered view with no key. -/
def filteredNoKey : FilteredViewData := { key := none, baseViewKey := none }

/-- Concrete sample: the first of two views sharing one key. -/
def dupViewFirst : View :=
  { vtype := ViewType.systemLandscape, key := some "dup", paperSize := some "A4" }

/-- Concrete sample: the second of two views sharing one key. -/
def dupViewSecond : View :=
  { vtype := ViewType.dynamic, key := some "dup" }

/-- Concrete sample: a view with a fresh key. -/
def freshKeyView : View := { vtype := ViewType.component, key := some "fresh" }

/-- Concrete sample: a view with an empty key. -/
def emptyKeyView : View := { vtype := ViewType.deployment, key := some "" }

/-- Concrete sample: a view whose key collides with `sampleSet`. -/
def dupKeyView : View := { vtype := ViewType.systemContext, key := some "landscape-1" }

/-- Concrete sample: a filtered view with a fresh key. -/
def freshKeyFiltered : FilteredViewData :=
  { key := some "fresh", baseViewKey := some "landscape-1" }

/-- Concrete sample: a filtered view with an empty key. -/
def emptyKeyFiltered : FilteredViewData := { key := some "", baseViewKey := none }

/-- Concrete sample: a filtered view whose key collides with `sampleSet`. -/
def dupKeyFiltered : FilteredViewData :=
  { key := some "landscape-1", baseViewKey := none }

/-- The membership tests behind the seven typed iteration properties, in
property order; every stored view satisfies exactly one of them. -/
def view_partition_preds : List (AbstractView → Bool) :=
  [is_view_of_type ViewType.systemLandscape,
    is_view_of_type ViewType.systemContext,
    is_view_of_type ViewType.container,
    is_view_of_type ViewType.component,
    is_view_of_type ViewType.deployment,
    is_view_of_type ViewType.dynamic,
    is_filtered_view]

/-- Concrete sample: a model with one element, one software system and one
relationship. -/
def sampleModel : Model :=
  { elementIds := ["el-1"], softwareSystemIds := ["ss-1"],
    relationshipIds := ["rel-1"] }

/-- Concrete sample: a view referencing one present and one absent element id. -/
def danglingView : View :=
  { vtype := ViewType.deployment, key := some "deploy-1",
    elementViews := [{ id := "el-1" }, { id := "ghost" }],
    relationshipViews := [{ id := "rel-1" }] }

/-- Concrete sample: a filtered view over the sample landscape view. -/
def sampleFilteredData : FilteredViewData :=
  { key := some "filtered-1", baseViewKey := some "landscape-1" }

/-- Concrete sample: a serialized view set with one landscape view and one
filtered view based on it. -/
def sampleViewSetIo : ViewSetIo :=
  { systemLandscapeViews := [{ key := some "landscape-1" }],
    filteredViews :=
      [{ key := some "filtered-1", baseViewKey := some "landscape-1" }] }

/-- Concrete sample: a container view carrying layout information. -/
def layoutSourceView : View :=
  { vtype := ViewType.container, key := some "cv-1", paperSize := some "A3",
    elementViews := [{ id := "el-1", x := some 100, y := some 200 }] }

/-- Concrete sample: the same container view without layout information. -/
def layoutDestView : View :=
  { vtype := ViewType.container, key := some "cv-1",
    elementViews := [{ id := "el-1" }] }

/-- Concrete sample: a set holding the layout-carrying view. -/
def layoutSourceSet : ViewSet :=
  { views_map := [(some "cv-1", AbstractView.ofView layoutSourceView)] }

/-- Concrete sample: a set holding the layout-free view. -/
def layoutDestSet : ViewSet :=
  { views_map := [(some "cv-1", AbstractView.ofView layoutDestView)] }

/-- Concrete sample: the set produced by the pre-patch hydration phases of
`sampleViewSetIo`. -/
def samplePreHydrated : ViewSet :=
  { views_map :=
      [(some "landscape-1", AbstractView.ofView
          { vtype := ViewType.systemLandscape, key := some "landscape-1" }),
        (some "filtered-1", AbstractView.ofFiltered sampleFilteredData none)],
    model := some sampleModel }

/-- Concrete sample: a landscape view referencing one element and one
relationship of `sampleModel`. -/
def roundtripView : View :=
  { vtype := ViewType.systemLandscape, key := some "landscape-1",
    paperSize := some "A4",
    elementViews := [{ id := "el-1", x := some 10, y := some 20 }],
    relationshipViews := [{ id := "rel-1", position := some 50 }] }

/-- Concrete sample: a well-formed set with one landscape view and one
filtered view, used for the round-trip witness. -/
def roundtripSet : ViewSet :=
  { views_map :=
      [(some "landscape-1", AbstractView.ofView roundtripView),
        (some "filtered-1", AbstractView.ofFiltered sampleFilteredData none)] }

/-! ### Helper lemmas -/

section DictLemmas

variable {κ α : Type} [DecidableEq κ]

lemma dictGet_dictSet_self (d : List (κ × α)) (k : κ) (v : α) :
    dictGet (dictSet d k v) k = some v := by
  induction d with
  | nil => simp [dictSet, dictGet]
  | cons p rest ih =>
    by_cases h : p.1 = k
    · simp [dictSet, dictGet, h]
    · simp [dictSet, dictGet, h, ih]

lemma dictGet_dictSet_other (d : List (κ × α)) (k k2 : κ) (v : α) (h : k2 ≠ k) :
    dictGet (dictSet d k v) k2 = dictGet d k2 := by
  have h2 : ¬k = k2 := fun hh => h hh.symm
  induction d with
  | nil => simp [dictSet, dictGet, h2]
  | cons p rest ih =>
    by_cases hp : p.1 = k
    · simp [dictSet, dictGet, hp, h2]
    · simp [dictSet, dictGet, hp, ih]

lemma dictContains_iff_get_isSome (d : List (κ × α)) (k : κ) :
    dictContains d k = true ↔ (dictGet d k).isSome := by
  induction d with
  | nil => simp [dictContains, dictGet]
  | cons p rest ih =>
    by_cases h : p.1 = k
    · simp [dictContains, dictGet, h]
    · simp [dictContains, dictGet, h, ih]

lemma dictContains_false_get_none (d : List (κ × α)) (k : κ)
    (h : dictContains d k = false) : dictGet d k = none := by
  cases hg : dictGet d k with
  | none => rfl
  | some v =>
    have := (dictContains_iff_get_isSome d k).mpr (by simp [hg])
    rw [h] at this
    cases this

lemma dictContains_eq_mem_keys (d : List (κ × α)) (k : κ) :
    dictContains d k = true ↔ k ∈ d.map (fun p => p.1) := by
  induction d with
  | nil => simp [dictContains]
  | cons p rest ih =>
    by_cases h : p.1 = k
    · simp [dictContains, h]
    · simp only [dictContains, if_neg h, List.map_cons, List.mem_cons]
      rw [ih]
      constructor
      · exact fun hm => Or.inr hm
      · rintro (hh | hm)
        · exact absurd hh.symm h
        · exact hm

lemma dictSet_keys_of_contains (d : List (κ × α)) (k : κ) (v : α)
    (h : dictContains d k = true) :
    (dictSet d k v).map (fun p => p.1) = d.map (fun p => p.1) := by
  induction d with
  | nil => cases h
  | cons p rest ih =>
    by_cases hp : p.1 = k
    · simp [dictSet, hp]
    · simp only [dictContains, if_neg hp] at h
      simp [dictSet, hp, ih h]

end DictLemmas

/-! ### Claim theorems -/

/-- C5: `get_view(key)` returns the stored view when the key is present and
`None` when it is not, never raising, while indexed access `viewset[key]`
returns the stored view when present and raises `KeyError` when absent. -/
theorem get_view_and_getitem_contract (vs : ViewSet) (key : String) :
    (∀ view, dictGet vs.views_map (some key) = some view →
      vs.get_view (some key) = some view ∧
        vs.getitem (some key) = Except.ok view) ∧
    (dictGet vs.views_map (some key) = none →
      vs.get_view (some key) = none ∧
        vs.getitem (some key) = Except.error (PyError.keyError (some key))) := by
  constructor
  · intro view h
    exact ⟨h, by simp [ViewSet.getitem, h]⟩
  · intro h
    exact ⟨h, by simp [ViewSet.getitem, h]⟩

/-- Witness for C5 at a concrete one-view set and its stored key. -/
theorem get_view_and_getitem_contract_witness :
    dictGet sampleSet.views_map (some "landscape-1") =
        some (AbstractView.ofView sampleLandscapeView) ∧
      (sampleSet.get_view (some "landscape-1") =
          some (AbstractView.ofView sampleLandscapeView) ∧
        sampleSet.getitem (some "landscape-1") =
          Except.ok (AbstractView.ofView sampleLandscapeView)) :=
  ⟨rfl, (get_view_and_getitem_contract sampleSet "landscape-1").1
    (AbstractView.ofView sampleLandscapeView) rfl⟩

lemma list_find?_append {β : Type} (l1 l2 : List β) (p : β → Bool) :
    (l1 ++ l2).find? p = (l1.find? p).orElse (fun _ => l2.find? p) := by
  induction l1 with
  | nil => simp [Option.orElse]
  | cons a l ih =>
    cases hpa : p a with
    | true => simp [List.find?_cons_of_pos, hpa, Option.orElse]
    | false => simp [List.find?_cons_of_neg, hpa, ih]

lemma foldl_dictSet_get (l : List AbstractView) (k : Option String) :
    ∀ acc, dictGet (l.foldl (fun d v => dictSet d v.key v) acc) k =
      match l.reverse.find? (fun v => decide (v.key = k)) with
      | some v => some v
      | none => dictGet acc k := by
  induction l with
  | nil => intro acc; simp
  | cons a l ih =>
    intro acc
    simp only [List.foldl_cons, List.reverse_cons]
    rw [ih, list_find?_append]
    cases hfind : l.reverse.find? (fun v => decide (v.key = k)) with
    | some v => simp [Option.orElse]
    | none =>
      by_cases h : a.key = k
      · subst h
        simp [Option.orElse, List.find?, dictGet_dictSet_self]
      · have h2 : k ≠ a.key := fun hh => h hh.symm
        simp [Option.orElse, List.find?, h, dictGet_dictSet_other _ _ _ _ h2]

section MapELemmas

variable {α β γ : Type}

lemma mapE_ok_of_forall (f : α → Except PyError β) (g : α → β) (l : List α)
    (h : ∀ x ∈ l, f x = Except.ok (g x)) : mapE f l = Except.ok (l.map g) := by
  induction l with
  | nil => simp [mapE]
  | cons x xs ih =>
    have hx := h x (List.mem_cons_self x xs)
    have hxs := ih (fun y hy => h y (List.mem_cons_of_mem x hy))
    simp [mapE, hx, hxs]

lemma mapE_cases (f : α → Except PyError β) (l : List α) :
    (∃ ys, mapE f l = Except.ok ys) ∨
      (∃ x ∈ l, ∃ e, f x = Except.error e ∧ mapE f l = Except.error e) := by
  induction l with
  | nil => exact Or.inl ⟨[], rfl⟩
  | cons x xs ih =>
    cases hfx : f x with
    | error e =>
        exact Or.inr ⟨x, List.mem_cons_self x xs, e, hfx, by simp [mapE, hfx]⟩
    | ok y =>
      rcases ih with ⟨ys, hys⟩ | ⟨x2, hmem, e, hfe, hme⟩
      · exact Or.inl ⟨y :: ys, by simp [mapE, hfx, hys]⟩
      · exact Or.inr ⟨x2, List.mem_cons_of_mem x hmem, e, hfe,
          by simp [mapE, hfx, hme]⟩

lemma mapE_ok_forall (f : α → Except PyError β) (l : List α) (ys : List β)
    (h : mapE f l = Except.ok ys) : ∀ x ∈ l, ∃ y, f x = Except.ok y := by
  induction l generalizing ys with
  | nil => intro x hx; cases hx
  | cons a xs ih =>
    intro x hx
    cases hfa : f a with
    | error e => simp [mapE, hfa] at h
    | ok y =>
      cases hrest : mapE f xs with
      | error e => simp [mapE, hfa, hrest] at h
      | ok ys2 =>
        rcases List.mem_cons.mp hx with hxa | hxs
        · exact ⟨y, hxa ▸ hfa⟩
        · exact ih ys2 hrest x hxs

lemma mapE_map (f : β → Except PyError γ) (g : α → β) (l : List α) :
    mapE f (l.map g) = mapE (fun x => f (g x)) l := by
  induction l with
  | nil => rfl
  | cons x xs ih => simp [mapE, ih]

end MapELemmas

/-- C7: the serialized exchange form uses the stable external field names: a
endpoints and metadata of a relationship are emitted under `sourceId`,
`destinationId`, `interactionStyle` and `linkedRelationshipId`, and a view
per-type lists of a view set under `systemLandscapeViews`, `systemContextViews`,
`containerViews`, `componentViews`, `deploymentViews`, `dynamicViews` and
`filteredViews`, each carrying the correspondingly named internal attribute. -/
theorem exchange_field_aliases (r : Relationship) (views : ViewSetIo) :
    dictGet r.serialize "sourceId" = some (optStr r.source_id) ∧
    dictGet r.serialize "destinationId" = some (optStr r.destination_id) ∧
    dictGet r.serialize "interactionStyle" =
      some (match r.interaction_style with
        | none => Json.null
        | some style => Json.str style.value) ∧
    dictGet r.serialize "linkedRelationshipId" =
      some (optStr r.linked_relationship_id) ∧
    dictGet views.serialize "systemLandscapeViews" =
      some (Json.arr (views.systemLandscapeViews.map ViewIo.toJson)) ∧
    dictGet views.serialize "systemContextViews" =
      some (Json.arr (views.systemContextViews.map ViewIo.toJson)) ∧
    dictGet views.serialize "containerViews" =
      some (Json.arr (views.containerViews.map ViewIo.toJson)) ∧
    dictGet views.serialize "componentViews" =
      some (Json.arr (views.componentViews.map ViewIo.toJson)) ∧
    dictGet views.serialize "deploymentViews" =
      some (Json.arr (views.deploymentViews.map ViewIo.toJson)) ∧
    dictGet views.serialize "dynamicViews" =
      some (Json.arr (views.dynamicViews.map ViewIo.toJson)) ∧
    dictGet views.serialize "filteredViews" =
      some (Json.arr (views.filteredViews.map FilteredViewIo.toJson)) := by
  refine ⟨rfl, rfl, rfl, rfl, rfl, rfl, rfl, rfl, rfl, rfl, rfl⟩

/-- C10: `ViewSet.__init__` performs no key-uniqueness or non-emptiness check:
for any supplied views, construction succeeds and each key is mapped to the
last view carrying it in the chained iteration order (system-landscape first,
filtered last); concretely, for two views sharing a key, the later one is kept
and the earlier one silently dropped. -/
theorem init_performs_no_key_check :
    (∀ (model : Option Model)
        (system_landscape_views system_context_views container_views
          component_views deployment_views dynamic_views : List View)
        (filtered_views : List FilteredViewData) (k : Option String),
      dictGet (ViewSet.init model system_landscape_views system_context_views
          container_views component_views deployment_views dynamic_views
          filtered_views).views_map k =
        last_with_key (all_views_chain system_landscape_views
          system_context_views container_views component_views deployment_views
          dynamic_views filtered_views) k) ∧
    dictGet (ViewSet.init none [dupViewFirst] [] [] [] [] [dupViewSecond]
        []).views_map (some "dup") =
      some (AbstractView.ofView dupViewSecond) := by
  constructor
  · intro model slv scv cv compv dv dyv fvs k
    show dictGet (buildDict (all_views_chain slv scv cv compv dv dyv fvs)) k = _
    unfold buildDict last_with_key
    rw [foldl_dictSet_get]
    cases (all_views_chain slv scv cv compv dv dyv fvs).reverse.find?
        (fun v => decide (v.key = k)) with
    | some v => rfl
    | none => rfl
  · rfl

/-- C9: every `create_*_view` method checks the key before any mutation, so a
call that raises leaves the key-to-view mapping — and hence `get_view` — of
the receiver exactly as it was. -/
theorem create_view_atomic_on_error (vs : ViewSet) (v : View)
    (fv : FilteredViewData)
    (hv : ∃ e, vs.ensure_key_is_specific_and_unique v.key = Except.error e)
    (hf : ∃ e, vs.ensure_key_is_specific_and_unique fv.key = Except.error e) :
    ((∃ e, vs.create_system_landscape_view v = Except.error e) ∧
      run_create vs (vs.create_system_landscape_view v) = vs) ∧
    ((∃ e, vs.create_system_context_view v = Except.error e) ∧
      run_create vs (vs.create_system_context_view v) = vs) ∧
    ((∃ e, vs.create_container_view v = Except.error e) ∧
      run_create vs (vs.create_container_view v) = vs) ∧
    ((∃ e, vs.create_component_view v = Except.error e) ∧
      run_create vs (vs.create_component_view v) = vs) ∧
    ((∃ e, vs.create_deployment_view v = Except.error e) ∧
      run_create vs (vs.create_deployment_view v) = vs) ∧
    ((∃ e, vs.create_dynamic_view v = Except.error e) ∧
      run_create vs (vs.create_dynamic_view v) = vs) ∧
    ((∃ e, vs.create_filtered_view fv = Except.error e) ∧
      run_create vs (vs.create_filtered_view fv) = vs) ∧
    (∀ k, (run_create vs (vs.create_system_landscape_view v)).get_view k =
      vs.get_view k) := by
  obtain ⟨e1, he1⟩ := hv
  obtain ⟨e2, he2⟩ := hf
  refine ⟨⟨⟨e1, ?_⟩, ?_⟩, ⟨⟨e1, ?_⟩, ?_⟩, ⟨⟨e1, ?_⟩, ?_⟩, ⟨⟨e1, ?_⟩, ?_⟩,
      ⟨⟨e1, ?_⟩, ?_⟩, ⟨⟨e1, ?_⟩, ?_⟩, ⟨⟨e2, ?_⟩, ?_⟩, ?_⟩ <;>
    simp [ViewSet.create_system_landscape_view, ViewSet.create_system_context_view,
      ViewSet.create_container_view, ViewSet.create_component_view,
      ViewSet.create_deployment_view, ViewSet.create_dynamic_view,
      ViewSet.create_filtered_view, run_create, he1, he2]

/-- C2: every view-creation method of `ViewSet` raises on an empty or `None`
key, raises on a key already present in the set, and on a fresh non-empty key
stores the view under that key and returns it. -/
theorem create_view_key_uniqueness (vs : ViewSet) (v vE vN vD : View)
    (fv fvE fvN fvD : FilteredViewData) (k kD : String)
    (hvk : v.key = some k) (hk : k ≠ "")
    (hfresh : dictContains vs.views_map (some k) = false)
    (hEk : vE.key = some "") (hNk : vN.key = none)
    (hDk : vD.key = some kD)
    (hdup : dictContains vs.views_map (some kD) = true)
    (hfvk : fv.key = some k) (hfEk : fvE.key = some "")
    (hfNk : fvN.key = none) (hfDk : fvD.key = some kD) :
    (vs.create_system_landscape_view v =
      Except.ok (vs.add_view (AbstractView.ofView v), v)) ∧
    (vs.create_system_context_view v =
      Except.ok (vs.add_view (AbstractView.ofView v), v)) ∧
    (vs.create_container_view v =
      Except.ok (vs.add_view (AbstractView.ofView v), v)) ∧
    (vs.create_component_view v =
      Except.ok (vs.add_view (AbstractView.ofView v), v)) ∧
    (vs.create_deployment_view v =
      Except.ok (vs.add_view (AbstractView.ofView v), v)) ∧
    (vs.create_dynamic_view v =
      Except.ok (vs.add_view (AbstractView.ofView v), v)) ∧
    (vs.create_filtered_view fv =
      Except.ok (vs.add_view (AbstractView.ofFiltered fv none), fv)) ∧
    ((vs.add_view (AbstractView.ofView v)).get_view (some k) =
      some (AbstractView.ofView v)) ∧
    ((vs.add_view (AbstractView.ofFiltered fv none)).get_view (some k) =
      some (AbstractView.ofFiltered fv none)) ∧
    (∃ e, vs.create_system_landscape_view vE = Except.error e) ∧
    (∃ e, vs.create_system_context_view vE = Except.error e) ∧
    (∃ e, vs.create_container_view vE = Except.error e) ∧
    (∃ e, vs.create_component_view vE = Except.error e) ∧
    (∃ e, vs.create_deployment_view vE = Except.error e) ∧
    (∃ e, vs.create_dynamic_view vE = Except.error e) ∧
    (∃ e, vs.create_filtered_view fvE = Except.error e) ∧
    (∃ e, vs.create_system_landscape_view vN = Except.error e) ∧
    (∃ e, vs.create_system_context_view vN = Except.error e) ∧
    (∃ e, vs.create_container_view vN = Except.error e) ∧
    (∃ e, vs.create_component_view vN = Except.error e) ∧
    (∃ e, vs.create_deployment_view vN = Except.error e) ∧
    (∃ e, vs.create_dynamic_view vN = Except.error e) ∧
    (∃ e, vs.create_filtered_view fvN = Except.error e) ∧
    (∃ e, vs.create_system_landscape_view vD = Except.error e) ∧
    (∃ e, vs.create_system_context_view vD = Except.error e) ∧
    (∃ e, vs.create_container_view vD = Except.error e) ∧
    (∃ e, vs.create_component_view vD = Except.error e) ∧
    (∃ e, vs.create_deployment_view vD = Except.error e) ∧
    (∃ e, vs.create_dynamic_view vD = Except.error e) ∧
    (∃ e, vs.create_filtered_view fvD = Except.error e) := by
  have hokv : vs.ensure_key_is_specific_and_unique v.key = Except.ok () := by
    simp [ViewSet.ensure_key_is_specific_and_unique, hvk, hk, hfresh]
  have hokf : vs.ensure_key_is_specific_and_unique fv.key = Except.ok () := by
    simp [ViewSet.ensure_key_is_specific_and_unique, hfvk, hk, hfresh]
  have hE : vs.ensure_key_is_specific_and_unique (some "") =
      Except.error (PyError.valueError "A key must be specified.") := by
    simp [ViewSet.ensure_key_is_specific_and_unique]
  have hN : vs.ensure_key_is_specific_and_unique none =
      Except.error (PyError.valueError "A key must be specified.") := by
    simp [ViewSet.ensure_key_is_specific_and_unique]
  have hD : ∃ e, vs.ensure_key_is_specific_and_unique (some kD) =
      Except.error e := by
    by_cases hkD : kD = ""
    · refine ⟨PyError.valueError "A key must be specified.", ?_⟩
      simp [ViewSet.ensure_key_is_specific_and_unique, hkD]
    · refine ⟨PyError.valueError ("View already exists in workspace with key "
        ++ kD ++ "."), ?_⟩
      simp [ViewSet.ensure_key_is_specific_and_unique, hkD, hdup]
  obtain ⟨eD, heD⟩ := hD
  refine ⟨by simp [ViewSet.create_system_landscape_view, hokv],
    by simp [ViewSet.create_system_context_view, hokv],
    by simp [ViewSet.create_container_view, hokv],
    by simp [ViewSet.create_component_view, hokv],
    by simp [ViewSet.create_deployment_view, hokv],
    by simp [ViewSet.create_dynamic_view, hokv],
    by simp [ViewSet.create_filtered_view, hokf],
    by simp [ViewSet.add_view, ViewSet.get_view, AbstractView.key, hvk,
      dictGet_dictSet_self],
    by simp [ViewSet.add_view, ViewSet.get_view, AbstractView.key, hfvk,
      dictGet_dictSet_self],
    ⟨PyError.valueError "A key must be specified.", by simp [ViewSet.create_system_landscape_view, hEk, hE]⟩,
    ⟨PyError.valueError "A key must be specified.", by simp [ViewSet.create_system_context_view, hEk, hE]⟩,
    ⟨PyError.valueError "A key must be specified.", by simp [ViewSet.create_container_view, hEk, hE]⟩,
    ⟨PyError.valueError "A key must be specified.", by simp [ViewSet.create_component_view, hEk, hE]⟩,
    ⟨PyError.valueError "A key must be specified.", by simp [ViewSet.create_deployment_view, hEk, hE]⟩,
    ⟨PyError.valueError "A key must be specified.", by simp [ViewSet.create_dynamic_view, hEk, hE]⟩,
    ⟨PyError.valueError "A key must be specified.", by simp [ViewSet.create_filtered_view, hfEk, hE]⟩,
    ⟨PyError.valueError "A key must be specified.", by simp [ViewSet.create_system_landscape_view, hNk, hN]⟩,
    ⟨PyError.valueError "A key must be specified.", by simp [ViewSet.create_system_context_view, hNk, hN]⟩,
    ⟨PyError.valueError "A key must be specified.", by simp [ViewSet.create_container_view, hNk, hN]⟩,
    ⟨PyError.valueError "A key must be specified.", by simp [ViewSet.create_component_view, hNk, hN]⟩,
    ⟨PyError.valueError "A key must be specified.", by simp [ViewSet.create_deployment_view, hNk, hN]⟩,
    ⟨PyError.valueError "A key must be specified.", by simp [ViewSet.create_dynamic_view, hNk, hN]⟩,
    ⟨PyError.valueError "A key must be specified.", by simp [ViewSet.create_filtered_view, hfNk, hN]⟩,
    ⟨eD, by simp [ViewSet.create_system_landscape_view, hDk, heD]⟩,
    ⟨eD, by simp [ViewSet.create_system_context_view, hDk, heD]⟩,
    ⟨eD, by simp [ViewSet.create_container_view, hDk, heD]⟩,
    ⟨eD, by simp [ViewSet.create_component_view, hDk, heD]⟩,
    ⟨eD, by simp [ViewSet.create_deployment_view, hDk, heD]⟩,
    ⟨eD, by simp [ViewSet.create_dynamic_view, hDk, heD]⟩,
    ⟨eD, by simp [ViewSet.create_filtered_view, hfDk, heD]⟩⟩

/-- Witness for C2: concrete fresh, empty, `None` and duplicate keys against
the one-view sample set. -/
theorem create_view_key_uniqueness_witness :
    freshKeyView.key = some "fresh" ∧ "fresh" ≠ "" ∧
    dictContains sampleSet.views_map (some "fresh") = false ∧
    emptyKeyView.key = some "" ∧ viewNoKey.key = none ∧
    dupKeyView.key = some "landscape-1" ∧
    dictContains sampleSet.views_map (some "landscape-1") = true ∧
    freshKeyFiltered.key = some "fresh" ∧ emptyKeyFiltered.key = some "" ∧
    filteredNoKey.key = none ∧ dupKeyFiltered.key = some "landscape-1" ∧
    sampleSet.create_system_landscape_view freshKeyView =
      Except.ok (sampleSet.add_view (AbstractView.ofView freshKeyView),
        freshKeyView) :=
  ⟨rfl, by decide, rfl, rfl, rfl, rfl, rfl, rfl, rfl, rfl, rfl,
    (create_view_key_uniqueness sampleSet freshKeyView emptyKeyView viewNoKey
      dupKeyView freshKeyFiltered emptyKeyFiltered filteredNoKey dupKeyFiltered
      "fresh" "landscape-1" rfl (by decide) rfl rfl rfl rfl rfl rfl rfl rfl
      rfl).1⟩

lemma hydrate_view_element_step (m : Model) (ev : ElementView) :
    (match m.get_element ev.id with
      | .error e => Except.error e
      | .ok element => Except.ok { ev with element := some element }) =
      (if ev.id ∈ m.elementIds then
        Except.ok { ev with element := some ev.id }
      else Except.error (PyError.notFound ev.id)) := by
  by_cases h : ev.id ∈ m.elementIds <;> simp [Model.get_element, h]

lemma hydrate_view_relationship_step (m : Model) (rv : RelationshipView) :
    (match m.get_relationship rv.id with
      | .error e => Except.error e
      | .ok relationship => Except.ok { rv with relationship := some relationship }) =
      (if rv.id ∈ m.relationshipIds then
        Except.ok { rv with relationship := some rv.id }
      else Except.error (PyError.notFound rv.id)) := by
  by_cases h : rv.id ∈ m.relationshipIds <;> simp [Model.get_relationship, h]

lemma hydrate_view_ok (view : View) (m : Model)
    (he : ∀ ev ∈ view.elementViews, ev.id ∈ m.elementIds)
    (hr : ∀ rv ∈ view.relationshipViews, rv.id ∈ m.relationshipIds) :
    ViewSet.hydrate_view view m = Except.ok (roundtrip_view view) := by
  have h1 := mapE_ok_of_forall
    (fun element_view : ElementView =>
      match m.get_element element_view.id with
      | .error e => Except.error e
      | .ok element => Except.ok { element_view with element := some element })
    (fun ev : ElementView => { ev with element := some ev.id })
    view.elementViews
    (fun ev hev => by
      show (match m.get_element ev.id with
        | .error e => Except.error e
        | .ok element => Except.ok { ev with element := some element }) =
        Except.ok { ev with element := some ev.id }
      rw [hydrate_view_element_step]
      simp [he ev hev])
  have h2 := mapE_ok_of_forall
    (fun relationship_view : RelationshipView =>
      match m.get_relationship relationship_view.id with
      | .error e => Except.error e
      | .ok relationship =>
          Except.ok { relationship_view with relationship := some relationship })
    (fun rv : RelationshipView => { rv with relationship := some rv.id })
    view.relationshipViews
    (fun rv hrv => by
      show (match m.get_relationship rv.id with
        | .error e => Except.error e
        | .ok relationship =>
            Except.ok { rv with relationship := some relationship }) =
        Except.ok { rv with relationship := some rv.id }
      rw [hydrate_view_relationship_step]
      simp [hr rv hrv])
  simp [ViewSet.hydrate_view, h1, h2, roundtrip_view]

/-- C3: `_hydrate_view` resolves every `ElementView` id through `get_element`
and every `RelationshipView` id through `get_relationship` — succeeding only
when all ids are present, with every entry bound to its resolved reference —
and fails with a NotFound error as soon as any id is absent from the model,
rather than skipping the entry or continuing. -/
theorem hydrate_view_resolves_every_reference (view : View) (m : Model) :
    (((∀ ev ∈ view.elementViews, ev.id ∈ m.elementIds) ∧
        (∀ rv ∈ view.relationshipViews, rv.id ∈ m.relationshipIds)) →
      ViewSet.hydrate_view view m = Except.ok (roundtrip_view view)) ∧
    (∀ v2, ViewSet.hydrate_view view m = Except.ok v2 →
      (∀ ev ∈ view.elementViews, ev.id ∈ m.elementIds) ∧
        (∀ rv ∈ view.relationshipViews, rv.id ∈ m.relationshipIds) ∧
        v2 = roundtrip_view view) ∧
    (((∃ ev ∈ view.elementViews, ev.id ∉ m.elementIds) ∨
        (∃ rv ∈ view.relationshipViews, rv.id ∉ m.relationshipIds)) →
      ∃ i, ViewSet.hydrate_view view m = Except.error (PyError.notFound i)) := by
  have hok : ((∀ ev ∈ view.elementViews, ev.id ∈ m.elementIds) ∧
      (∀ rv ∈ view.relationshipViews, rv.id ∈ m.relationshipIds)) →
      ViewSet.hydrate_view view m = Except.ok (roundtrip_view view) :=
    fun hall => hydrate_view_ok view m hall.1 hall.2
  have hokinv : ∀ v2, ViewSet.hydrate_view view m = Except.ok v2 →
      (∀ ev ∈ view.elementViews, ev.id ∈ m.elementIds) ∧
        (∀ rv ∈ view.relationshipViews, rv.id ∈ m.relationshipIds) := by
    intro v2 h
    unfold ViewSet.hydrate_view at h
    cases h1 : mapE (fun element_view =>
        match m.get_element element_view.id with
        | .error e => Except.error e
        | .ok element => Except.ok { element_view with element := some element })
        view.elementViews with
    | error e => rw [h1] at h; cases h
    | ok evs =>
      rw [h1] at h
      cases h2 : mapE (fun relationship_view =>
          match m.get_relationship relationship_view.id with
          | .error e => Except.error e
          | .ok relationship =>
              Except.ok { relationship_view with relationship := some relationship })
          view.relationshipViews with
      | error e => rw [h2] at h; cases h
      | ok rvs =>
        constructor
        · intro ev hev
          obtain ⟨y, hy⟩ := mapE_ok_forall _ _ _ h1 ev hev
          rw [hydrate_view_element_step] at hy
          by_cases hmem : ev.id ∈ m.elementIds
          · exact hmem
          · rw [if_neg hmem] at hy; cases hy
        · intro rv hrv
          obtain ⟨y, hy⟩ := mapE_ok_forall _ _ _ h2 rv hrv
          rw [hydrate_view_relationship_step] at hy
          by_cases hmem : rv.id ∈ m.relationshipIds
          · exact hmem
          · rw [if_neg hmem] at hy; cases hy
  refine ⟨hok, ?_, ?_⟩
  · intro v2 h
    obtain ⟨he, hr⟩ := hokinv v2 h
    refine ⟨he, hr, ?_⟩
    have := hok ⟨he, hr⟩
    rw [this] at h
    exact (Except.ok.injEq _ _).mp h.symm
  · intro hmiss
    by_cases hall : (∀ ev ∈ view.elementViews, ev.id ∈ m.elementIds) ∧
        (∀ rv ∈ view.relationshipViews, rv.id ∈ m.relationshipIds)
    · rcases hmiss with ⟨ev, hev, hnm⟩ | ⟨rv, hrv, hnm⟩
      · exact absurd (hall.1 ev hev) hnm
      · exact absurd (hall.2 rv hrv) hnm
    · rcases mapE_cases (fun element_view =>
          match m.get_element element_view.id with
          | .error e => Except.error e
          | .ok element =>
              Except.ok { element_view with element := some element })
          view.elementViews with ⟨evs, hevs⟩ | ⟨ev, hev, e, hfe, hme⟩
      · rcases mapE_cases (fun relationship_view =>
            match m.get_relationship relationship_view.id with
            | .error e => Except.error e
            | .ok relationship =>
                Except.ok { relationship_view with relationship := some relationship })
            view.relationshipViews with ⟨rvs, hrvs⟩ | ⟨rv, hrv, e, hfe, hme⟩
        · exfalso
          apply hall
          constructor
          · intro ev hev
            obtain ⟨y, hy⟩ := mapE_ok_forall _ _ _ hevs ev hev
            rw [hydrate_view_element_step] at hy
            by_cases hmem : ev.id ∈ m.elementIds
            · exact hmem
            · rw [if_neg hmem] at hy; cases hy
          · intro rv hrv
            obtain ⟨y, hy⟩ := mapE_ok_forall _ _ _ hrvs rv hrv
            rw [hydrate_view_relationship_step] at hy
            by_cases hmem : rv.id ∈ m.relationshipIds
            · exact hmem
            · rw [if_neg hmem] at hy; cases hy
        · rw [hydrate_view_relationship_step] at hfe
          by_cases hmem : rv.id ∈ m.relationshipIds
          · rw [if_pos hmem] at hfe; cases hfe
          · rw [if_neg hmem] at hfe
            refine ⟨rv.id, ?_⟩
            have he : e = PyError.notFound rv.id :=
              ((Except.error.injEq _ _).mp hfe).symm
            simp [ViewSet.hydrate_view, hevs, hme, he]
      · rw [hydrate_view_element_step] at hfe
        by_cases hmem : ev.id ∈ m.elementIds
        · rw [if_pos hmem] at hfe; cases hfe
        · rw [if_neg hmem] at hfe
          refine ⟨ev.id, ?_⟩
          have he : e = PyError.notFound ev.id :=
            ((Except.error.injEq _ _).mp hfe).symm
          simp [ViewSet.hydrate_view, hme, he]

/-- Witness for C3: a view referencing one present and one absent element id
fails hydration with NotFound. -/
theorem hydrate_view_resolves_every_reference_witness :
    ((∃ ev ∈ danglingView.elementViews, ev.id ∉ sampleModel.elementIds) ∨
      (∃ rv ∈ danglingView.relationshipViews,
        rv.id ∉ sampleModel.relationshipIds)) ∧
    (∃ i, ViewSet.hydrate_view danglingView sampleModel =
      Except.error (PyError.notFound i)) :=
  ⟨by decide,
    (hydrate_view_resolves_every_reference danglingView sampleModel).2.2
      (by decide)⟩

lemma get_typed_views_map_eq (vs : ViewSet) (vt : ViewType) :
    (vs.get_typed_views vt).map AbstractView.ofView =
      vs.views.filter (is_view_of_type vt) := by
  show (List.filterMap _ vs.views).map _ = _
  induction vs.views with
  | nil => rfl
  | cons a l ih =>
    cases a with
    | ofView v =>
      by_cases h : v.vtype = vt
      · simp [List.filterMap_cons, List.filter_cons, is_view_of_type, h, ih]
      · simp [List.filterMap_cons, List.filter_cons, is_view_of_type, h, ih]
    | ofFiltered fv b =>
      simp [List.filterMap_cons, List.filter_cons, is_view_of_type,
        is_filtered_view, ih]

lemma filtered_views_map_eq (vs : ViewSet) :
    vs.filtered_views.map (fun p => AbstractView.ofFiltered p.1 p.2) =
      vs.views.filter is_filtered_view := by
  show (List.filterMap _ vs.views).map _ = _
  induction vs.views with
  | nil => rfl
  | cons a l ih =>
    cases a with
    | ofView v =>
      simp [List.filterMap_cons, List.filter_cons, is_view_of_type,
        is_filtered_view, ih]
    | ofFiltered fv b =>
      simp [List.filterMap_cons, List.filter_cons, is_filtered_view, ih]

lemma countP_partition_preds (a : AbstractView) :
    view_partition_preds.countP (fun p => p a) = 1 := by
  cases a with
  | ofView v =>
    cases v with
    | mk vtype key description softwareSystemId containerId elementId
        paperSize elementViews relationshipViews =>
      cases vtype <;> rfl
  | ofFiltered fv b => rfl

lemma filters_drop_of_countP_zero (ps : List (AbstractView → Bool))
    (a : AbstractView) (l : List AbstractView)
    (h : ps.countP (fun p => p a) = 0) :
    ps.map (fun p => List.filter p (a :: l)) =
      ps.map (fun p => List.filter p l) := by
  induction ps with
  | nil => rfl
  | cons p ps ih =>
    rw [List.countP_cons] at h
    have hpa : p a = false := by
      cases hb : p a
      · rfl
      · rw [hb] at h; simp at h
    have hps : ps.countP (fun p => p a) = 0 := by
      rw [hpa] at h; simpa using h
    rw [List.map_cons, List.map_cons, List.filter_cons, ih hps]
    simp [hpa]

lemma perm_flatten_insert (ps : List (AbstractView → Bool)) (a : AbstractView)
    (l : List AbstractView) (h : ps.countP (fun p => p a) = 1) :
    ((ps.map (fun p => List.filter p (a :: l))).flatten).Perm
      (a :: (ps.map (fun p => List.filter p l)).flatten) := by
  induction ps with
  | nil => simp at h
  | cons p ps ih =>
    rw [List.countP_cons] at h
    by_cases hpa : p a = true
    · have hps : ps.countP (fun p => p a) = 0 := by
        rw [hpa] at h; simpa using h
      rw [List.map_cons, List.map_cons, List.flatten_cons, List.flatten_cons,
        List.filter_cons, if_pos hpa, filters_drop_of_countP_zero ps a l hps,
        List.cons_append]
    · have hps : ps.countP (fun p => p a) = 1 := by
        simp only [if_neg hpa, Nat.add_zero] at h; exact h
      rw [List.map_cons, List.map_cons, List.flatten_cons, List.flatten_cons,
        List.filter_cons, if_neg hpa]
      exact ((ih hps).append_left (List.filter p l)).trans List.perm_middle

lemma views_partition_perm (l : List AbstractView) :
    ((view_partition_preds.map (fun p => l.filter p)).flatten).Perm l := by
  induction l with
  | nil => simp
  | cons a l ih =>
    exact (perm_flatten_insert view_partition_preds a l
      (countP_partition_preds a)).trans (ih.cons a)

lemma dictContains_keys_congr {κ α : Type} [DecidableEq κ]
    (d1 d2 : List (κ × α)) (h : d1.map Prod.fst = d2.map Prod.fst) (k : κ) :
    dictContains d1 k = dictContains d2 k := by
  induction d1 generalizing d2 with
  | nil =>
    have : d2 = [] := List.map_eq_nil_iff.mp h.symm
    subst this
    rfl
  | cons p d ih =>
    cases d2 with
    | nil => simp at h
    | cons q d2 =>
      simp only [List.map_cons, List.cons.injEq] at h
      simp only [dictContains, h.1]
      by_cases hk : q.1 = k
      · simp [hk]
      · simp [hk, ih d2 h.2]

lemma dictGet_obs_congr (d1 d2 : List (Option String × AbstractView))
    (h : d1.map (fun p => (p.1, p.2.obs)) = d2.map (fun p => (p.1, p.2.obs)))
    (k : Option String) :
    (dictGet d1 k).map AbstractView.obs = (dictGet d2 k).map AbstractView.obs := by
  induction d1 generalizing d2 with
  | nil =>
    have : d2 = [] := List.map_eq_nil_iff.mp h.symm
    subst this
    rfl
  | cons p d ih =>
    cases d2 with
    | nil => simp at h
    | cons q d2 =>
      simp only [List.map_cons, List.cons.injEq, Prod.mk.injEq] at h
      simp only [dictGet, h.1.1]
      by_cases hk : q.1 = k
      · simp [hk, h.1.2]
      · simp [hk, ih d2 h.2]

lemma patchLoop_ok_keyobs (todo : List (Option String × AbstractView)) :
    ∀ done d2, patchLoop done todo = Except.ok d2 →
      d2.map (fun p => (p.1, p.2.obs)) =
        (done ++ todo).map (fun p => (p.1, p.2.obs)) := by
  induction todo with
  | nil =>
    intro done d2 h
    simp only [patchLoop] at h
    cases h
    simp
  | cons e rest ih =>
    intro done d2 h
    obtain ⟨k, v⟩ := e
    cases v with
    | ofView v0 =>
      simp only [patchLoop] at h
      rw [List.append_cons]
      exact ih _ _ h
    | ofFiltered fv b =>
      simp only [patchLoop] at h
      cases hg : dictGet (done ++ (k, AbstractView.ofFiltered fv b) :: rest)
          fv.baseViewKey with
      | none => rw [hg] at h; cases h
      | some base =>
        rw [hg] at h
        have h2 := ih _ _ h
        rw [h2]
        simp [List.map_append, AbstractView.obs]

lemma patchLoop_ok_of_all_contained (todo : List (Option String × AbstractView)) :
    ∀ done,
      (∀ e ∈ todo, ∀ fv b, e.2 = AbstractView.ofFiltered fv b →
        dictContains (done ++ todo) fv.baseViewKey = true) →
      ∃ d2, patchLoop done todo = Except.ok d2 := by
  induction todo with
  | nil => exact fun done _ => ⟨done, rfl⟩
  | cons e rest ih =>
    intro done h
    obtain ⟨k, v⟩ := e
    cases v with
    | ofView v0 =>
      have h2 : ∀ e ∈ rest, ∀ fv b, e.2 = AbstractView.ofFiltered fv b →
          dictContains ((done ++ [(k, AbstractView.ofView v0)]) ++ rest)
            fv.baseViewKey = true := by
        intro e he fv b heq
        rw [← List.append_cons]
        exact h e (List.mem_cons_of_mem _ he) fv b heq
      obtain ⟨d2, hd2⟩ := ih _ h2
      exact ⟨d2, by simpa only [patchLoop] using hd2⟩
    | ofFiltered fv b =>
      have hc := h (k, AbstractView.ofFiltered fv b)
        (List.mem_cons_self _ _) fv b rfl
      have hs := (dictContains_iff_get_isSome _ _).mp hc
      cases hg : dictGet (done ++ (k, AbstractView.ofFiltered fv b) :: rest)
          fv.baseViewKey with
      | none => rw [hg] at hs; cases hs
      | some base =>
        have h2 : ∀ e ∈ rest, ∀ fv2 b2, e.2 = AbstractView.ofFiltered fv2 b2 →
            dictContains ((done ++ [(k, AbstractView.ofFiltered fv (some base))])
              ++ rest) fv2.baseViewKey = true := by
          intro e he fv2 b2 heq
          rw [dictContains_keys_congr
            ((done ++ [(k, AbstractView.ofFiltered fv (some base))]) ++ rest)
            (done ++ (k, AbstractView.ofFiltered fv b) :: rest)
            (by simp [List.map_append])]
          exact h e (List.mem_cons_of_mem _ he) fv2 b2 heq
        obtain ⟨d2, hd2⟩ := ih _ h2
        refine ⟨d2, ?_⟩
        simp only [patchLoop, hg]
        exact hd2

lemma patchLoop_error_of_missing (todo : List (Option String × AbstractView)) :
    ∀ done,
      (∃ e ∈ todo, ∃ fv b, e.2 = AbstractView.ofFiltered fv b ∧
        dictContains (done ++ todo) fv.baseViewKey = false) →
      ∃ bk, patchLoop done todo = Except.error (PyError.keyError bk) := by
  induction todo with
  | nil =>
    rintro done ⟨e, he, _⟩
    cases he
  | cons e0 rest ih =>
    rintro done ⟨e, he, fv0, b0, heq, hnc⟩
    obtain ⟨k, v⟩ := e0
    cases v with
    | ofView v0 =>
      rcases List.mem_cons.mp he with rfl | he2
      · simp at heq
      · refine ih (done ++ [(k, AbstractView.ofView v0)]) ⟨e, he2, fv0, b0, heq, ?_⟩
        rw [← List.append_cons]
        exact hnc
    | ofFiltered fv b =>
      cases hg : dictGet (done ++ (k, AbstractView.ofFiltered fv b) :: rest)
          fv.baseViewKey with
      | none =>
        exact ⟨fv.baseViewKey, by simp only [patchLoop, hg]⟩
      | some base =>
        rcases List.mem_cons.mp he with rfl | he2
        · simp only at heq
          cases heq
          have hs : dictContains (done ++ (k, AbstractView.ofFiltered fv0 b0) ::
              rest) fv0.baseViewKey = true :=
            (dictContains_iff_get_isSome _ _).mpr (by rw [hg]; rfl)
          rw [hs] at hnc
          cases hnc
        · obtain ⟨bk, hbk⟩ := ih
            (done ++ [(k, AbstractView.ofFiltered fv (some base))])
            ⟨e, he2, fv0, b0, heq, by
              rw [dictContains_keys_congr
                ((done ++ [(k, AbstractView.ofFiltered fv (some base))]) ++ rest)
                (done ++ (k, AbstractView.ofFiltered fv b) :: rest)
                (by simp [List.map_append])]
              exact hnc⟩
          refine ⟨bk, ?_⟩
          simp only [patchLoop, hg]
          exact hbk

lemma patchLoop_ok_bound (todo : List (Option String × AbstractView)) :
    ∀ done d2, patchLoop done todo = Except.ok d2 →
      (∀ (k : Option String) fv b,
        (k, AbstractView.ofFiltered fv b) ∈ done →
        ∃ base, b = some base ∧
          (dictGet (done ++ todo) fv.baseViewKey).map AbstractView.obs =
            some base.obs) →
      ∀ (k : Option String) fv b, (k, AbstractView.ofFiltered fv b) ∈ d2 →
        ∃ base, b = some base ∧
          (dictGet d2 fv.baseViewKey).map AbstractView.obs = some base.obs := by
  induction todo with
  | nil =>
    intro done d2 h hinv
    simp only [patchLoop] at h
    cases h
    intro k fv b hmem
    simpa using hinv k fv b hmem
  | cons e rest ih =>
    intro done d2 h hinv
    obtain ⟨k0, v0⟩ := e
    cases v0 with
    | ofView w =>
      simp only [patchLoop] at h
      refine ih _ _ h ?_
      intro k fv b hmem
      rcases List.mem_append.mp hmem with hmd | hm1
      · rw [← List.append_cons]
        exact hinv k fv b hmd
      · simp at hm1
    | ofFiltered fv0 b0 =>
      simp only [patchLoop] at h
      cases hg : dictGet (done ++ (k0, AbstractView.ofFiltered fv0 b0) :: rest)
          fv0.baseViewKey with
      | none => rw [hg] at h; cases h
      | some base0 =>
        rw [hg] at h
        have hkeyobs : ((done ++ [(k0, AbstractView.ofFiltered fv0 (some base0))])
            ++ rest).map (fun p => (p.1, p.2.obs)) =
            (done ++ (k0, AbstractView.ofFiltered fv0 b0) :: rest).map
              (fun p => (p.1, p.2.obs)) := by
          simp [List.map_append, AbstractView.obs]
        refine ih _ _ h ?_
        intro k fv b hmem
        rcases List.mem_append.mp hmem with hmd | hm1
        · obtain ⟨base, hb, hobs⟩ := hinv k fv b hmd
          refine ⟨base, hb, ?_⟩
          rw [dictGet_obs_congr _ _ hkeyobs]
          exact hobs
        · simp only [List.mem_singleton, Prod.mk.injEq] at hm1
          obtain ⟨hk, hv⟩ := hm1
          cases hv
          refine ⟨base0, rfl, ?_⟩
          rw [dictGet_obs_congr _ _ hkeyobs, hg]
          rfl

/-- C4: `ViewSet.hydrate` resolves `FilteredView` records in a final phase
over the fully hydrated set: when the `base_view_key` of every filtered view is
present among the keys of the set, hydration succeeds, the patch changes no key and
no observable view content, and every stored filtered view ends up bound to
the live view found under its base key; when the base key of some filtered view
names no view in the set, hydration fails with a `KeyError`. -/
theorem hydrate_filtered_patch_phase (views : ViewSetIo) (m : Model)
    (vs0 : ViewSet) (hpre : ViewSet.hydrate_pre views m = Except.ok vs0) :
    ((vs0.views_map.all (fun e =>
        match e.2 with
        | .ofFiltered fv _ => dictContains vs0.views_map fv.baseViewKey
        | .ofView _ => true) = true) →
      ∃ vs2, ViewSet.hydrate views m = Except.ok vs2 ∧
        vs2.views_map.map (fun p => (p.1, p.2.obs)) =
          vs0.views_map.map (fun p => (p.1, p.2.obs)) ∧
        ∀ (k : Option String) fv b,
          (k, AbstractView.ofFiltered fv b) ∈ vs2.views_map →
          ∃ base, b = some base ∧
            (dictGet vs2.views_map fv.baseViewKey).map AbstractView.obs =
              some base.obs) ∧
    ((vs0.views_map.all (fun e =>
        match e.2 with
        | .ofFiltered fv _ => dictContains vs0.views_map fv.baseViewKey
        | .ofView _ => true) = false) →
      ∃ bk, ViewSet.hydrate views m = Except.error (PyError.keyError bk)) := by
  constructor
  · intro hall
    have hA : ∀ e ∈ vs0.views_map, ∀ fv b,
        e.2 = AbstractView.ofFiltered fv b →
        dictContains ([] ++ vs0.views_map) fv.baseViewKey = true := by
      intro e he fv b heq
      have ht := List.all_eq_true.mp hall e he
      rw [heq] at ht
      simpa using ht
    obtain ⟨d2, hd2⟩ := patchLoop_ok_of_all_contained vs0.views_map [] hA
    refine ⟨{ vs0 with views_map := d2 }, ?_, ?_, ?_⟩
    · simp only [ViewSet.hydrate, hpre, hd2]
    · simpa using patchLoop_ok_keyobs vs0.views_map [] d2 hd2
    · exact patchLoop_ok_bound vs0.views_map [] d2 hd2
        (by intro k fv b hmem; cases hmem)
  · intro hall
    obtain ⟨e, he, hne⟩ := List.all_eq_false.mp hall
    have hB : ∃ e ∈ vs0.views_map, ∃ fv b,
        e.2 = AbstractView.ofFiltered fv b ∧
        dictContains ([] ++ vs0.views_map) fv.baseViewKey = false := by
      refine ⟨e, he, ?_⟩
      cases hv : e.2 with
      | ofView w => rw [hv] at hne; simp at hne
      | ofFiltered fv b =>
        refine ⟨fv, b, rfl, ?_⟩
        rw [hv] at hne
        have hne2 : ¬dictContains vs0.views_map fv.baseViewKey = true := hne
        simp only [List.nil_append]
        simpa using hne2
    obtain ⟨bk, hbk⟩ := patchLoop_error_of_missing vs0.views_map [] hB
    exact ⟨bk, by simp only [ViewSet.hydrate, hpre, hbk]⟩

/-- Witness for C4: hydrating a serialized set holding one landscape view and
one filtered view whose base key is present succeeds with the filtered view
bound. -/
theorem hydrate_filtered_patch_phase_witness :
    ViewSet.hydrate_pre sampleViewSetIo sampleModel =
        Except.ok samplePreHydrated ∧
    (samplePreHydrated.views_map.all (fun e =>
        match e.2 with
        | .ofFiltered fv _ =>
            dictContains samplePreHydrated.views_map fv.baseViewKey
        | .ofView _ => true) = true) ∧
    (∃ vs2, ViewSet.hydrate sampleViewSetIo sampleModel = Except.ok vs2 ∧
      vs2.views_map.map (fun p => (p.1, p.2.obs)) =
        samplePreHydrated.views_map.map (fun p => (p.1, p.2.obs)) ∧
      ∀ (k : Option String) fv b,
        (k, AbstractView.ofFiltered fv b) ∈ vs2.views_map →
        ∃ base, b = some base ∧
          (dictGet vs2.views_map fv.baseViewKey).map AbstractView.obs =
            some base.obs) :=
  ⟨rfl, rfl,
    (hydrate_filtered_patch_phase sampleViewSetIo sampleModel samplePreHydrated
      rfl).1 rfl⟩

lemma dictGet_some_mem {κ α : Type} [DecidableEq κ]
    (d : List (κ × α)) (k : κ) (v : α) (h : dictGet d k = some v) : (k, v) ∈ d := by
  induction d with
  | nil => cases h
  | cons p rest ih =>
    by_cases hp : p.1 = k
    · simp only [dictGet, if_pos hp] at h
      cases h
      subst hp
      exact List.mem_cons_self _ _
    · simp only [dictGet, if_neg hp] at h
      exact List.mem_cons_of_mem _ (ih h)

lemma find_id_keeps_element_id (src : List ElementView) (ev : ElementView) :
    (match src.find? (fun sev : ElementView => decide (sev.id = ev.id)) with
      | some sev => { ev with x := sev.x, y := sev.y }
      | none => ev).id = ev.id := by
  cases h : src.find? (fun sev : ElementView => decide (sev.id = ev.id)) <;>
    simp [h]

lemma find_id_keeps_relationship_id (src : List RelationshipView)
    (rv : RelationshipView) :
    (match src.find? (fun srv : RelationshipView => decide (srv.id = rv.id)) with
      | some srv => { rv with position := srv.position }
      | none => rv).id = rv.id := by
  cases h : src.find? (fun srv : RelationshipView => decide (srv.id = rv.id)) <;>
    simp [h]

lemma obs_apply_layout_copy (d s : AbstractView) :
    (apply_layout_copy d s).obs = d.obs := by
  cases d with
  | ofFiltered fv b => cases s <;> rfl
  | ofView dv =>
    cases s with
    | ofFiltered fv b => rfl
    | ofView sv =>
      show (AbstractView.ofView (dv.copy_layout_information_from sv)).obs = _
      simp only [AbstractView.obs, View.copy_layout_information_from,
        ViewObs.mk.injEq, true_and]
      constructor
      · rw [List.map_map]
        apply List.map_congr_left
        intro ev _
        exact find_id_keeps_element_id sv.elementViews ev
      · rw [List.map_map]
        apply List.map_congr_left
        intro rv _
        exact find_id_keeps_relationship_id sv.relationshipViews rv

lemma copy_step_keys (d : List (Option String × AbstractView))
    (a : AbstractView) :
    ((match dictGet d a.key with
      | some destination_view =>
          if layout_copy_applies destination_view a then
            dictSet d a.key (apply_layout_copy destination_view a)
          else d
      | none => d) : List (Option String × AbstractView)).map Prod.fst =
      d.map Prod.fst := by
  cases hg : dictGet d a.key with
  | none => rfl
  | some dv =>
    by_cases happ : layout_copy_applies dv a
    · simp only [happ, if_true]
      exact dictSet_keys_of_contains d a.key _
        ((dictContains_iff_get_isSome d a.key).mpr (by rw [hg]; rfl))
    · simp [happ]

lemma copy_step_obs (d : List (Option String × AbstractView))
    (a : AbstractView) (k : Option String) :
    (dictGet (match dictGet d a.key with
      | some destination_view =>
          if layout_copy_applies destination_view a then
            dictSet d a.key (apply_layout_copy destination_view a)
          else d
      | none => d) k).map AbstractView.obs =
      (dictGet d k).map AbstractView.obs := by
  cases hg : dictGet d a.key with
  | none => rfl
  | some dv =>
    by_cases happ : layout_copy_applies dv a
    · simp only [happ, if_true]
      by_cases hk : k = a.key
      · subst hk
        rw [dictGet_dictSet_self, hg]
        simp [obs_apply_layout_copy]
      · rw [dictGet_dictSet_other _ _ _ _ hk]
    · simp [happ]

lemma copy_step_other (d : List (Option String × AbstractView))
    (a : AbstractView) (k : Option String) (hk : k ≠ a.key) :
    dictGet (match dictGet d a.key with
      | some destination_view =>
          if layout_copy_applies destination_view a then
            dictSet d a.key (apply_layout_copy destination_view a)
          else d
      | none => d) k = dictGet d k := by
  cases hg : dictGet d a.key with
  | none => rfl
  | some dv =>
    by_cases happ : layout_copy_applies dv a
    · simp only [happ, if_true]
      exact dictGet_dictSet_other _ _ _ _ hk
    · simp [happ]

lemma copy_fold_obs (svs : List AbstractView) :
    ∀ (d : List (Option String × AbstractView)) (k : Option String),
      (dictGet (svs.foldl (fun d source_view =>
        match dictGet d source_view.key with
        | some destination_view =>
            if layout_copy_applies destination_view source_view then
              dictSet d source_view.key
                (apply_layout_copy destination_view source_view)
            else d
        | none => d) d) k).map AbstractView.obs =
        (dictGet d k).map AbstractView.obs := by
  induction svs with
  | nil => intro d k; rfl
  | cons a svs ih =>
    intro d k
    rw [List.foldl_cons, ih]
    exact copy_step_obs d a k

lemma copy_fold_keys (svs : List AbstractView) :
    ∀ (d : List (Option String × AbstractView)),
      (svs.foldl (fun d source_view =>
        match dictGet d source_view.key with
        | some destination_view =>
            if layout_copy_applies destination_view source_view then
              dictSet d source_view.key
                (apply_layout_copy destination_view source_view)
            else d
        | none => d) d).map Prod.fst = d.map Prod.fst := by
  induction svs with
  | nil => intro d; rfl
  | cons a svs ih =>
    intro d
    rw [List.foldl_cons, ih]
    exact copy_step_keys d a

lemma copy_fold_other (svs : List AbstractView) :
    ∀ (d : List (Option String × AbstractView)) (k : Option String),
      k ∉ svs.map AbstractView.key →
      dictGet (svs.foldl (fun d source_view =>
        match dictGet d source_view.key with
        | some destination_view =>
            if layout_copy_applies destination_view source_view then
              dictSet d source_view.key
                (apply_layout_copy destination_view source_view)
            else d
        | none => d) d) k = dictGet d k := by
  induction svs with
  | nil => intro d k _; rfl
  | cons a svs ih =>
    intro d k hk
    simp only [List.map_cons, List.mem_cons] at hk
    push_neg at hk
    rw [List.foldl_cons, ih _ _ hk.2]
    exact copy_step_other d a k hk.1

lemma copy_fold_at_key (svs : List AbstractView)
    (hnd : (svs.map AbstractView.key).Nodup) :
    ∀ (d : List (Option String × AbstractView)), ∀ sv ∈ svs,
      dictGet (svs.foldl (fun d source_view =>
        match dictGet d source_view.key with
        | some destination_view =>
            if layout_copy_applies destination_view source_view then
              dictSet d source_view.key
                (apply_layout_copy destination_view source_view)
            else d
        | none => d) d) sv.key =
        (match dictGet d sv.key with
          | some dv =>
              if layout_copy_applies dv sv then some (apply_layout_copy dv sv)
              else some dv
          | none => none) := by
  induction svs with
  | nil => intro d sv hsv; cases hsv
  | cons a svs ih =>
    intro d sv hsv
    simp only [List.map_cons, List.nodup_cons] at hnd
    rcases List.mem_cons.mp hsv with rfl | hsv2
    · rw [List.foldl_cons,
        copy_fold_other svs _ sv.key hnd.1]
      cases hg : dictGet d sv.key with
      | none => simp [hg]
      | some dv =>
        by_cases happ : layout_copy_applies dv sv
        · simp only [hg, happ, if_true]
          exact dictGet_dictSet_self d sv.key _
        · simp [hg, happ]
    · have hka : sv.key ≠ a.key := by
        intro hh
        exact hnd.1 (hh ▸ List.mem_map_of_mem AbstractView.key hsv2)
      rw [List.foldl_cons, ih hnd.2 _ sv hsv2,
        copy_step_other d a sv.key hka]

lemma dictGet_none_iff_not_contains {κ α : Type} [DecidableEq κ]
    (d : List (κ × α)) (k : κ) :
    dictGet d k = none ↔ dictContains d k = false := by
  constructor
  · intro h
    cases hc : dictContains d k
    · rfl
    · have := (dictContains_iff_get_isSome d k).mp hc
      rw [h] at this
      cases this
  · exact dictContains_false_get_none d k

/-- C6: `copy_layout_information_from` copies layout into exactly those
destination views whose key exists in the source set with an identical
concrete type; it never changes the key structure of the set nor the
observable content (key, type, element/relationship membership), and views
with no key-and-type match are left entirely unchanged. -/
theorem copy_layout_information_spec (vs source : ViewSet)
    (hwfs : dictWF source.views_map) :
    ((vs.copy_layout_information_from source).views_map.map Prod.fst =
      vs.views_map.map Prod.fst) ∧
    (∀ k, (dictGet (vs.copy_layout_information_from source).views_map k).map
        AbstractView.obs = (dictGet vs.views_map k).map AbstractView.obs) ∧
    (∀ (k : Option String) dv, dictGet vs.views_map k = some dv →
      dictGet (vs.copy_layout_information_from source).views_map k =
        (match dictGet source.views_map k with
          | some sv =>
              if layout_copy_applies dv sv then some (apply_layout_copy dv sv)
              else some dv
          | none => some dv)) := by
  obtain ⟨hwf1, hwf2⟩ := hwfs
  have hkeys : source.views.map AbstractView.key =
      source.views_map.map Prod.fst := by
    show (source.views_map.map (fun p => p.2)).map AbstractView.key = _
    rw [List.map_map]
    apply List.map_congr_left
    intro p hp
    exact hwf1 p hp
  have hnd : (source.views.map AbstractView.key).Nodup := by
    rw [hkeys]; exact hwf2
  refine ⟨copy_fold_keys source.views vs.views_map,
    fun k => copy_fold_obs source.views vs.views_map k, ?_⟩
  intro k dv hdv
  simp only [ViewSet.copy_layout_information_from]
  cases hg : dictGet source.views_map k with
  | none =>
    have hkn : k ∉ source.views.map AbstractView.key := by
      rw [hkeys]
      intro hmem
      have hc := (dictContains_eq_mem_keys source.views_map k).mpr hmem
      have hs := (dictContains_iff_get_isSome _ _).mp hc
      rw [hg] at hs
      cases hs
    rw [copy_fold_other source.views vs.views_map k hkn]
    exact hdv
  | some sv =>
    have hmemsv : (k, sv) ∈ source.views_map := dictGet_some_mem _ _ _ hg
    have hsvkey : sv.key = k := hwf1 (k, sv) hmemsv
    have hsvviews : sv ∈ source.views := by
      show sv ∈ source.views_map.map (fun p => p.2)
      exact List.mem_map_of_mem _ hmemsv
    have h := copy_fold_at_key source.views hnd vs.views_map sv hsvviews
    rw [hsvkey, hdv] at h
    exact h

/-- Witness for C6: copying layout from a one-view source set with a matching
key and type into a one-view destination set. -/
theorem copy_layout_information_spec_witness :
    dictWF layoutSourceSet.views_map ∧
    (((layoutDestSet.copy_layout_information_from layoutSourceSet).views_map.map
        Prod.fst = layoutDestSet.views_map.map Prod.fst) ∧
      (∀ k, (dictGet (layoutDestSet.copy_layout_information_from
          layoutSourceSet).views_map k).map AbstractView.obs =
        (dictGet layoutDestSet.views_map k).map AbstractView.obs) ∧
      (∀ (k : Option String) dv, dictGet layoutDestSet.views_map k = some dv →
        dictGet (layoutDestSet.copy_layout_information_from
            layoutSourceSet).views_map k =
          (match dictGet layoutSourceSet.views_map k with
            | some sv =>
                if layout_copy_applies dv sv then
                  some (apply_layout_copy dv sv)
                else some dv
            | none => some dv))) :=
  ⟨by decide, copy_layout_information_spec layoutDestSet layoutSourceSet
    (by decide)⟩

lemma key_roundtrip (av : AbstractView) :
    (roundtrip_abstract av).key = av.key := by
  cases av <;> rfl

lemma obs_roundtrip (av : AbstractView) :
    (roundtrip_abstract av).obs = av.obs := by
  cases av with
  | ofFiltered fv b => rfl
  | ofView v =>
    show (AbstractView.ofView (roundtrip_view v)).obs = _
    simp only [AbstractView.obs, roundtrip_view, ViewObs.mk.injEq, true_and]
    constructor
    · rw [List.map_map]
      rfl
    · rw [List.map_map]
      rfl

lemma mem_get_typed_views (vs : ViewSet) (vt : ViewType) (v : View)
    (h : v ∈ vs.get_typed_views vt) :
    AbstractView.ofView v ∈ vs.views ∧ v.vtype = vt := by
  obtain ⟨av, hav, heq⟩ := List.mem_filterMap.mp h
  cases av with
  | ofFiltered fv b => cases heq
  | ofView w =>
    have heq2 : (if w.vtype = vt then some w else none) = some v := heq
    by_cases hw : w.vtype = vt
    · rw [if_pos hw] at heq2
      cases heq2
      exact ⟨hav, hw⟩
    · rw [if_neg hw] at heq2
      cases heq2

lemma view_refs_resolve_spec (m : Model) (v : View)
    (h : view_refs_resolve m (AbstractView.ofView v) = true) :
    (∀ ev ∈ v.elementViews, ev.id ∈ m.elementIds) ∧
      (∀ rv ∈ v.relationshipViews, rv.id ∈ m.relationshipIds) := by
  simp only [view_refs_resolve, Bool.and_eq_true] at h
  obtain ⟨⟨h1, h2⟩, _⟩ := h
  constructor
  · intro ev hev
    exact of_decide_eq_true (List.all_eq_true.mp h1 ev hev)
  · intro rv hrv
    exact of_decide_eq_true (List.all_eq_true.mp h2 rv hrv)

lemma view_refs_resolve_ss_anchor (m : Model) (v : View)
    (hvt : v.vtype = ViewType.systemContext ∨ v.vtype = ViewType.container)
    (h : view_refs_resolve m (AbstractView.ofView v) = true) :
    ∃ i, m.get_software_system_with_id v.softwareSystemId = Except.ok i := by
  simp only [view_refs_resolve, Bool.and_eq_true] at h
  obtain ⟨_, h3⟩ := h
  rcases hvt with hvt | hvt <;>
    rw [hvt] at h3 <;>
    · cases hss : v.softwareSystemId with
      | none => rw [hss] at h3; cases h3
      | some i =>
        rw [hss] at h3
        exact ⟨i, by
          simp [Model.get_software_system_with_id, of_decide_eq_true h3]⟩

lemma view_refs_resolve_container_anchor (m : Model) (v : View)
    (hvt : v.vtype = ViewType.component)
    (h : view_refs_resolve m (AbstractView.ofView v) = true) :
    ∃ i, m.get_element_opt v.containerId = Except.ok i := by
  simp only [view_refs_resolve, Bool.and_eq_true] at h
  obtain ⟨_, h3⟩ := h
  rw [hvt] at h3
  cases hc : v.containerId with
  | none => rw [hc] at h3; cases h3
  | some i =>
    rw [hc] at h3
    exact ⟨i, by
      simp [Model.get_element_opt, Model.get_element, of_decide_eq_true h3]⟩

lemma view_refs_resolve_dynamic_anchor (m : Model) (v : View)
    (hvt : v.vtype = ViewType.dynamic)
    (h : view_refs_resolve m (AbstractView.ofView v) = true) :
    pyTruthy v.elementId = false ∨
      ∃ i, m.get_element_opt v.elementId = Except.ok i := by
  simp only [view_refs_resolve, Bool.and_eq_true] at h
  obtain ⟨_, h3⟩ := h
  rw [hvt] at h3
  cases he : v.elementId with
  | none => exact Or.inl rfl
  | some i =>
    rw [he] at h3
    by_cases hi : i = ""
    · exact Or.inl (by simp [pyTruthy, hi])
    · have h4 : (if i ≠ "" then decide (i ∈ m.elementIds) else true) = true := h3
      rw [if_pos hi] at h4
      exact Or.inr ⟨i, by
        simp [Model.get_element_opt, Model.get_element, of_decide_eq_true h4]⟩

lemma hydrate_view_of_io (v : View) (m : Model) (vt : ViewType)
    (hvt : v.vtype = vt)
    (he : ∀ ev ∈ v.elementViews, ev.id ∈ m.elementIds)
    (hr : ∀ rv ∈ v.relationshipViews, rv.id ∈ m.relationshipIds) :
    ViewSet.hydrate_view (viewFromIo vt (viewToIo v)) m =
      Except.ok (roundtrip_view v) := by
  subst hvt
  have he2 : ∀ ev ∈ (viewFromIo v.vtype (viewToIo v)).elementViews,
      ev.id ∈ m.elementIds := by
    intro ev hev
    simp only [viewFromIo, viewToIo, List.map_map, List.mem_map] at hev
    obtain ⟨ev0, hev0, heq⟩ := hev
    rw [← heq]
    exact he ev0 hev0
  have hr2 : ∀ rv ∈ (viewFromIo v.vtype (viewToIo v)).relationshipViews,
      rv.id ∈ m.relationshipIds := by
    intro rv hrv
    simp only [viewFromIo, viewToIo, List.map_map, List.mem_map] at hrv
    obtain ⟨rv0, hrv0, heq⟩ := hrv
    rw [← heq]
    exact hr rv0 hrv0
  rw [hydrate_view_ok _ m he2 hr2]
  simp [roundtrip_view, viewFromIo, viewToIo, List.map_map]

lemma dictSet_append_of_not_contains {κ α : Type} [DecidableEq κ]
    (d : List (κ × α)) (k : κ) (v : α) (h : dictContains d k = false) :
    dictSet d k v = d ++ [(k, v)] := by
  induction d with
  | nil => rfl
  | cons p rest ih =>
    by_cases hp : p.1 = k
    · simp only [dictContains, if_pos hp] at h
      cases h
    · simp only [dictContains, if_neg hp] at h
      simp [dictSet, hp, ih h]

lemma dictContains_append {κ α : Type} [DecidableEq κ]
    (d1 d2 : List (κ × α)) (k : κ) :
    dictContains (d1 ++ d2) k = (dictContains d1 k || dictContains d2 k) := by
  induction d1 with
  | nil => simp [dictContains]
  | cons p rest ih =>
    by_cases hp : p.1 = k
    · simp [dictContains, hp]
    · simp [dictContains, hp, ih]

lemma buildDict_eq_map_pair (l : List AbstractView)
    (h : (l.map AbstractView.key).Nodup) :
    buildDict l = l.map (fun v => (v.key, v)) := by
  have main : ∀ (l : List AbstractView), (l.map AbstractView.key).Nodup →
      ∀ acc, (∀ v ∈ l, dictContains acc v.key = false) →
      l.foldl (fun d v => dictSet d v.key v) acc =
        acc ++ l.map (fun v => (v.key, v)) := by
    intro l
    induction l with
    | nil => intro _ acc _; simp
    | cons a l ih =>
      intro hnd acc hacc
      simp only [List.map_cons, List.nodup_cons] at hnd
      rw [List.foldl_cons,
        dictSet_append_of_not_contains _ _ _ (hacc a (List.mem_cons_self a l)),
        ih hnd.2 _ ?_]
      · simp
      · intro v hv
        rw [dictContains_append, hacc v (List.mem_cons_of_mem a hv),
          Bool.false_or]
        simp only [dictContains]
        have : ¬a.key = v.key := by
          intro hh
          exact hnd.1 (hh ▸ List.mem_map_of_mem AbstractView.key hv)
        simp [this]
  have h0 : ∀ v ∈ l, dictContains ([] : List (Option String × AbstractView))
      v.key = false := fun v _ => rfl
  simpa using main l h [] h0

lemma dictGet_map_pair (l : List AbstractView) (k : Option String) :
    dictGet (l.map (fun v => (v.key, v))) k =
      l.find? (fun v => decide (v.key = k)) := by
  induction l with
  | nil => rfl
  | cons a l ih =>
    by_cases h : a.key = k
    · simp [dictGet, List.find?, h]
    · simp [dictGet, List.find?, h, ih]

lemma dictContains_of_keys_perm {κ α β : Type} [DecidableEq κ]
    (d1 : List (κ × α)) (d2 : List (κ × β)) (k : κ)
    (h : (d1.map Prod.fst).Perm (d2.map Prod.fst)) :
    dictContains d1 k = dictContains d2 k := by
  cases hc2 : dictContains d2 k
  · cases hc1 : dictContains d1 k
    · rfl
    · have hm := (dictContains_eq_mem_keys d1 k).mp hc1
      have hm2 := h.mem_iff.mp hm
      rw [(dictContains_eq_mem_keys d2 k).mpr hm2] at hc2
      cases hc2
  · have hm := (dictContains_eq_mem_keys d2 k).mp hc2
    have hm1 := h.mem_iff.mpr hm
    exact (dictContains_eq_mem_keys d1 k).mpr hm1

lemma wf_eq_map_pair (d : List (Option String × AbstractView))
    (h : ∀ p ∈ d, p.2.key = p.1) :
    d = (d.map (fun p => p.2)).map (fun v => (v.key, v)) := by
  induction d with
  | nil => rfl
  | cons p rest ih =>
    have hp := h p (List.mem_cons_self p rest)
    rw [List.map_cons, List.map_cons,
      ← ih (fun q hq => h q (List.mem_cons_of_mem p hq))]
    rw [hp]

lemma find_key_perm (l1 l2 : List AbstractView) (hp : l1.Perm l2)
    (hnd : (l2.map AbstractView.key).Nodup) (k : Option String) :
    l1.find? (fun v => decide (v.key = k)) =
      l2.find? (fun v => decide (v.key = k)) := by
  cases h2 : l2.find? (fun v => decide (v.key = k)) with
  | none =>
    cases h1 : l1.find? (fun v => decide (v.key = k)) with
    | none => rfl
    | some y =>
      have hy1 := List.find?_some h1
      have hy : y.key = k := of_decide_eq_true hy1
      have hymem := hp.mem_iff.mp (List.mem_of_find?_eq_some h1)
      have hno := List.find?_eq_none.mp h2 y hymem
      simp [hy] at hno
  | some x =>
    have hx1 := List.find?_some h2
    have hx : x.key = k := of_decide_eq_true hx1
    have hxmem := List.mem_of_find?_eq_some h2
    cases h1 : l1.find? (fun v => decide (v.key = k)) with
    | none =>
      have hno := List.find?_eq_none.mp h1 x (hp.mem_iff.mpr hxmem)
      simp [hx] at hno
    | some y =>
      have hy1 := List.find?_some h1
      have hy : y.key = k := of_decide_eq_true hy1
      have hymem := hp.mem_iff.mp (List.mem_of_find?_eq_some h1)
      have : y = x := List.inj_on_of_nodup_map hnd hymem hxmem
        (by rw [hy, hx])
      rw [this]

lemma hydrate_pre_serialize (vs : ViewSet) (m : Model)
    (hres : vs.views.all (view_refs_resolve m) = true) :
    ViewSet.hydrate_pre vs.serialize m = Except.ok (ViewSet.init (some m)
      ((vs.get_typed_views ViewType.systemLandscape).map roundtrip_view)
      ((vs.get_typed_views ViewType.systemContext).map roundtrip_view)
      ((vs.get_typed_views ViewType.container).map roundtrip_view)
      ((vs.get_typed_views ViewType.component).map roundtrip_view)
      ((vs.get_typed_views ViewType.deployment).map roundtrip_view)
      ((vs.get_typed_views ViewType.dynamic).map roundtrip_view)
      (vs.filtered_views.map (fun p => p.1))) := by
  have hresolve : ∀ (vt : ViewType) (v : View), v ∈ vs.get_typed_views vt →
      view_refs_resolve m (AbstractView.ofView v) = true ∧ v.vtype = vt := by
    intro vt v hv
    obtain ⟨hmem, hvt⟩ := mem_get_typed_views vs vt v hv
    exact ⟨List.all_eq_true.mp hres _ hmem, hvt⟩
  have h1 : mapE (fun view_io =>
      ViewSet.hydrate_view (viewFromIo ViewType.systemLandscape view_io) m)
      (vs.serialize).systemLandscapeViews =
      Except.ok ((vs.get_typed_views ViewType.systemLandscape).map
        roundtrip_view) := by
    show mapE _ ((vs.get_typed_views ViewType.systemLandscape).map viewToIo) = _
    rw [mapE_map]
    apply mapE_ok_of_forall
    intro v hv
    obtain ⟨hrv, hvt⟩ := hresolve _ v hv
    obtain ⟨he, hr⟩ := view_refs_resolve_spec m v hrv
    exact hydrate_view_of_io v m _ hvt he hr
  have h2 : mapE (fun view_io =>
      match m.get_software_system_with_id view_io.softwareSystemId with
      | .error e => Except.error e
      | .ok _ =>
          ViewSet.hydrate_view (viewFromIo ViewType.systemContext view_io) m)
      (vs.serialize).systemContextViews =
      Except.ok ((vs.get_typed_views ViewType.systemContext).map
        roundtrip_view) := by
    show mapE _ ((vs.get_typed_views ViewType.systemContext).map viewToIo) = _
    rw [mapE_map]
    apply mapE_ok_of_forall
    intro v hv
    obtain ⟨hrv, hvt⟩ := hresolve _ v hv
    obtain ⟨he, hr⟩ := view_refs_resolve_spec m v hrv
    obtain ⟨i, hi⟩ := view_refs_resolve_ss_anchor m v (Or.inl hvt) hrv
    have hi2 : m.get_software_system_with_id (viewToIo v).softwareSystemId =
      Except.ok i := hi
    show (match m.get_software_system_with_id (viewToIo v).softwareSystemId with
      | .error e => Except.error e
      | .ok _ =>
          ViewSet.hydrate_view (viewFromIo ViewType.systemContext (viewToIo v))
            m) = _
    rw [hi2]
    exact hydrate_view_of_io v m _ hvt he hr
  have h3 : mapE (fun view_io =>
      match m.get_software_system_with_id view_io.softwareSystemId with
      | .error e => Except.error e
      | .ok _ =>
          ViewSet.hydrate_view (viewFromIo ViewType.container view_io) m)
      (vs.serialize).containerViews =
      Except.ok ((vs.get_typed_views ViewType.container).map roundtrip_view) := by
    show mapE _ ((vs.get_typed_views ViewType.container).map viewToIo) = _
    rw [mapE_map]
    apply mapE_ok_of_forall
    intro v hv
    obtain ⟨hrv, hvt⟩ := hresolve _ v hv
    obtain ⟨he, hr⟩ := view_refs_resolve_spec m v hrv
    obtain ⟨i, hi⟩ := view_refs_resolve_ss_anchor m v (Or.inr hvt) hrv
    have hi2 : m.get_software_system_with_id (viewToIo v).softwareSystemId =
      Except.ok i := hi
    show (match m.get_software_system_with_id (viewToIo v).softwareSystemId with
      | .error e => Except.error e
      | .ok _ =>
          ViewSet.hydrate_view (viewFromIo ViewType.container (viewToIo v))
            m) = _
    rw [hi2]
    exact hydrate_view_of_io v m _ hvt he hr
  have h4 : mapE (fun view_io =>
      match m.get_element_opt view_io.containerId with
      | .error e => Except.error e
      | .ok _ =>
          ViewSet.hydrate_view (viewFromIo ViewType.component view_io) m)
      (vs.serialize).componentViews =
      Except.ok ((vs.get_typed_views ViewType.component).map roundtrip_view) := by
    show mapE _ ((vs.get_typed_views ViewType.component).map viewToIo) = _
    rw [mapE_map]
    apply mapE_ok_of_forall
    intro v hv
    obtain ⟨hrv, hvt⟩ := hresolve _ v hv
    obtain ⟨he, hr⟩ := view_refs_resolve_spec m v hrv
    obtain ⟨i, hi⟩ := view_refs_resolve_container_anchor m v hvt hrv
    have hi2 : m.get_element_opt (viewToIo v).containerId = Except.ok i := hi
    show (match m.get_element_opt (viewToIo v).containerId with
      | .error e => Except.error e
      | .ok _ =>
          ViewSet.hydrate_view (viewFromIo ViewType.component (viewToIo v))
            m) = _
    rw [hi2]
    exact hydrate_view_of_io v m _ hvt he hr
  have h5 : mapE (fun view_io =>
      ViewSet.hydrate_view (viewFromIo ViewType.deployment view_io) m)
      (vs.serialize).deploymentViews =
      Except.ok ((vs.get_typed_views ViewType.deployment).map roundtrip_view) := by
    show mapE _ ((vs.get_typed_views ViewType.deployment).map viewToIo) = _
    rw [mapE_map]
    apply mapE_ok_of_forall
    intro v hv
    obtain ⟨hrv, hvt⟩ := hresolve _ v hv
    obtain ⟨he, hr⟩ := view_refs_resolve_spec m v hrv
    exact hydrate_view_of_io v m _ hvt he hr
  have h6 : mapE (fun view_io =>
      if pyTruthy view_io.elementId then
        match m.get_element_opt view_io.elementId with
        | .error e => Except.error e
        | .ok _ => ViewSet.hydrate_view (viewFromIo ViewType.dynamic view_io) m
      else ViewSet.hydrate_view (viewFromIo ViewType.dynamic view_io) m)
      (vs.serialize).dynamicViews =
      Except.ok ((vs.get_typed_views ViewType.dynamic).map roundtrip_view) := by
    show mapE _ ((vs.get_typed_views ViewType.dynamic).map viewToIo) = _
    rw [mapE_map]
    apply mapE_ok_of_forall
    intro v hv
    obtain ⟨hrv, hvt⟩ := hresolve _ v hv
    obtain ⟨he, hr⟩ := view_refs_resolve_spec m v hrv
    show (if pyTruthy (viewToIo v).elementId then
        match m.get_element_opt (viewToIo v).elementId with
        | .error e => Except.error e
        | .ok _ =>
            ViewSet.hydrate_view (viewFromIo ViewType.dynamic (viewToIo v)) m
      else ViewSet.hydrate_view (viewFromIo ViewType.dynamic (viewToIo v)) m) =
      Except.ok (roundtrip_view v)
    rcases view_refs_resolve_dynamic_anchor m v hvt hrv with hfalse | ⟨i, hi⟩
    · have hf2 : pyTruthy (viewToIo v).elementId = false := hfalse
      rw [if_neg (by rw [hf2]; exact Bool.false_ne_true)]
      exact hydrate_view_of_io v m _ hvt he hr
    · have hi2 : m.get_element_opt (viewToIo v).elementId = Except.ok i := hi
      by_cases hpt : pyTruthy (viewToIo v).elementId = true
      · rw [if_pos hpt, hi2]
        exact hydrate_view_of_io v m _ hvt he hr
      · rw [if_neg hpt]
        exact hydrate_view_of_io v m _ hvt he hr
  have h7 : (vs.serialize).filteredViews.map FilteredViewData.hydrate =
      vs.filtered_views.map (fun p => p.1) := by
    show ((vs.filtered_views.map (fun p => filteredToIo p.1)).map
      FilteredViewData.hydrate) = _
    rw [List.map_map]
    rfl
  simp only [ViewSet.hydrate_pre, h1, h2, h3, h4, h5, h6, h7]

lemma serialize_chain_eq (vs : ViewSet) :
    all_views_chain
      ((vs.get_typed_views ViewType.systemLandscape).map roundtrip_view)
      ((vs.get_typed_views ViewType.systemContext).map roundtrip_view)
      ((vs.get_typed_views ViewType.container).map roundtrip_view)
      ((vs.get_typed_views ViewType.component).map roundtrip_view)
      ((vs.get_typed_views ViewType.deployment).map roundtrip_view)
      ((vs.get_typed_views ViewType.dynamic).map roundtrip_view)
      (vs.filtered_views.map (fun p => p.1)) =
      (vs.views.filter (is_view_of_type ViewType.systemLandscape) ++
        vs.views.filter (is_view_of_type ViewType.systemContext) ++
        vs.views.filter (is_view_of_type ViewType.container) ++
        vs.views.filter (is_view_of_type ViewType.component) ++
        vs.views.filter (is_view_of_type ViewType.deployment) ++
        vs.views.filter (is_view_of_type ViewType.dynamic) ++
        vs.views.filter is_filtered_view).map roundtrip_abstract := by
  have hblock : ∀ vt : ViewType,
      ((vs.get_typed_views vt).map roundtrip_view).map AbstractView.ofView =
        (vs.views.filter (is_view_of_type vt)).map roundtrip_abstract := by
    intro vt
    rw [List.map_map, ← get_typed_views_map_eq, List.map_map]
    rfl
  have hfblock : (vs.filtered_views.map (fun p => p.1)).map
      (fun fv => AbstractView.ofFiltered fv none) =
        (vs.views.filter is_filtered_view).map roundtrip_abstract := by
    rw [List.map_map, ← filtered_views_map_eq, List.map_map]
    rfl
  simp only [all_views_chain, hblock, hfblock, List.map_append]

/-- C1: hydrating the serialized form of a view set against a model resolving
all its references reproduces the observable graph: hydration succeeds, the
resulting set has the same view keys, and under every key a view with the same
type, the same element ids and the same relationship ids as the original. -/
theorem hydrate_serialize_roundtrip (vs : ViewSet) (m : Model)
    (hwf : dictWF vs.views_map)
    (hres : vs.views.all (view_refs_resolve m) = true)
    (hbase : vs.views.all (filtered_base_ok vs) = true) :
    ∃ vs2, ViewSet.hydrate vs.serialize m = Except.ok vs2 ∧
      (vs2.views_map.map Prod.fst).Perm (vs.views_map.map Prod.fst) ∧
      ∀ k, (dictGet vs2.views_map k).map AbstractView.obs =
        (dictGet vs.views_map k).map AbstractView.obs := by
  obtain ⟨hwf1, hwf2⟩ := hwf
  have hpre := hydrate_pre_serialize vs m hres
  have hperm : (vs.views.filter (is_view_of_type ViewType.systemLandscape) ++
        vs.views.filter (is_view_of_type ViewType.systemContext) ++
        vs.views.filter (is_view_of_type ViewType.container) ++
        vs.views.filter (is_view_of_type ViewType.component) ++
        vs.views.filter (is_view_of_type ViewType.deployment) ++
        vs.views.filter (is_view_of_type ViewType.dynamic) ++
        vs.views.filter is_filtered_view).Perm vs.views := by
    have h := views_partition_perm vs.views
    simpa [view_partition_preds] using h
  have hkeysviews : vs.views.map AbstractView.key = vs.views_map.map Prod.fst := by
    show (vs.views_map.map (fun p => p.2)).map AbstractView.key = _
    rw [List.map_map]
    exact List.map_congr_left (fun p hp => hwf1 p hp)
  have hndviews : (vs.views.map AbstractView.key).Nodup := by
    rw [hkeysviews]; exact hwf2
  have hndR : (((vs.views.filter (is_view_of_type ViewType.systemLandscape) ++
        vs.views.filter (is_view_of_type ViewType.systemContext) ++
        vs.views.filter (is_view_of_type ViewType.container) ++
        vs.views.filter (is_view_of_type ViewType.component) ++
        vs.views.filter (is_view_of_type ViewType.deployment) ++
        vs.views.filter (is_view_of_type ViewType.dynamic) ++
        vs.views.filter is_filtered_view).map roundtrip_abstract).map AbstractView.key).Nodup := by
    rw [List.map_map,
      show (AbstractView.key ∘ roundtrip_abstract) = AbstractView.key from
        funext key_roundtrip]
    exact ((hperm.map AbstractView.key).nodup_iff).mpr hndviews
  have hvs1map : (ViewSet.init (some m)
      ((vs.get_typed_views ViewType.systemLandscape).map roundtrip_view)
      ((vs.get_typed_views ViewType.systemContext).map roundtrip_view)
      ((vs.get_typed_views ViewType.container).map roundtrip_view)
      ((vs.get_typed_views ViewType.component).map roundtrip_view)
      ((vs.get_typed_views ViewType.deployment).map roundtrip_view)
      ((vs.get_typed_views ViewType.dynamic).map roundtrip_view)
      (vs.filtered_views.map (fun p => p.1))).views_map =
      ((vs.views.filter (is_view_of_type ViewType.systemLandscape) ++
        vs.views.filter (is_view_of_type ViewType.systemContext) ++
        vs.views.filter (is_view_of_type ViewType.container) ++
        vs.views.filter (is_view_of_type ViewType.component) ++
        vs.views.filter (is_view_of_type ViewType.deployment) ++
        vs.views.filter (is_view_of_type ViewType.dynamic) ++
        vs.views.filter is_filtered_view).map roundtrip_abstract).map (fun v => (v.key, v)) := by
    show buildDict (all_views_chain _ _ _ _ _ _ _) = _
    rw [serialize_chain_eq vs]
    exact buildDict_eq_map_pair _ hndR
  have hkeysd1 : ((((vs.views.filter (is_view_of_type ViewType.systemLandscape) ++
        vs.views.filter (is_view_of_type ViewType.systemContext) ++
        vs.views.filter (is_view_of_type ViewType.container) ++
        vs.views.filter (is_view_of_type ViewType.component) ++
        vs.views.filter (is_view_of_type ViewType.deployment) ++
        vs.views.filter (is_view_of_type ViewType.dynamic) ++
        vs.views.filter is_filtered_view).map roundtrip_abstract).map
      (fun v => (v.key, v))).map Prod.fst).Perm (vs.views_map.map Prod.fst) := by
    have e1 : (((vs.views.filter (is_view_of_type ViewType.systemLandscape) ++
        vs.views.filter (is_view_of_type ViewType.systemContext) ++
        vs.views.filter (is_view_of_type ViewType.container) ++
        vs.views.filter (is_view_of_type ViewType.component) ++
        vs.views.filter (is_view_of_type ViewType.deployment) ++
        vs.views.filter (is_view_of_type ViewType.dynamic) ++
        vs.views.filter is_filtered_view).map roundtrip_abstract).map
        (fun v => (v.key, v))).map Prod.fst = (vs.views.filter (is_view_of_type ViewType.systemLandscape) ++
        vs.views.filter (is_view_of_type ViewType.systemContext) ++
        vs.views.filter (is_view_of_type ViewType.container) ++
        vs.views.filter (is_view_of_type ViewType.component) ++
        vs.views.filter (is_view_of_type ViewType.deployment) ++
        vs.views.filter (is_view_of_type ViewType.dynamic) ++
        vs.views.filter is_filtered_view).map AbstractView.key := by
      rw [List.map_map, List.map_map]
      exact List.map_congr_left (fun v hv => key_roundtrip v)
    rw [e1, ← hkeysviews]
    exact hperm.map _
  have hcontained : ∀ e ∈ ((vs.views.filter (is_view_of_type ViewType.systemLandscape) ++
        vs.views.filter (is_view_of_type ViewType.systemContext) ++
        vs.views.filter (is_view_of_type ViewType.container) ++
        vs.views.filter (is_view_of_type ViewType.component) ++
        vs.views.filter (is_view_of_type ViewType.deployment) ++
        vs.views.filter (is_view_of_type ViewType.dynamic) ++
        vs.views.filter is_filtered_view).map roundtrip_abstract).map
      (fun v => (v.key, v)), ∀ fv b, e.2 = AbstractView.ofFiltered fv b →
      dictContains ([] ++ ((vs.views.filter (is_view_of_type ViewType.systemLandscape) ++
        vs.views.filter (is_view_of_type ViewType.systemContext) ++
        vs.views.filter (is_view_of_type ViewType.container) ++
        vs.views.filter (is_view_of_type ViewType.component) ++
        vs.views.filter (is_view_of_type ViewType.deployment) ++
        vs.views.filter (is_view_of_type ViewType.dynamic) ++
        vs.views.filter is_filtered_view).map roundtrip_abstract).map
        (fun v => (v.key, v))) fv.baseViewKey = true := by
    intro e he fv b heq
    simp only [List.nil_append]
    obtain ⟨v, hv, rfl⟩ := List.mem_map.mp he
    have heq2 : v = AbstractView.ofFiltered fv b := heq
    subst heq2
    obtain ⟨av, hav, havR⟩ := List.mem_map.mp hv
    have havviews : av ∈ vs.views := hperm.mem_iff.mp hav
    cases av with
    | ofView w =>
      simp [roundtrip_abstract] at havR
    | ofFiltered fv0 b0 =>
      have havR2 : AbstractView.ofFiltered fv0 none =
          AbstractView.ofFiltered fv b := havR
      cases havR2
      have hb2 : dictContains vs.views_map fv.baseViewKey = true :=
        List.all_eq_true.mp hbase _ havviews
      rw [dictContains_of_keys_perm _ vs.views_map fv.baseViewKey hkeysd1]
      exact hb2
  obtain ⟨d2, hd2⟩ := patchLoop_ok_of_all_contained
    (((vs.views.filter (is_view_of_type ViewType.systemLandscape) ++
        vs.views.filter (is_view_of_type ViewType.systemContext) ++
        vs.views.filter (is_view_of_type ViewType.container) ++
        vs.views.filter (is_view_of_type ViewType.component) ++
        vs.views.filter (is_view_of_type ViewType.deployment) ++
        vs.views.filter (is_view_of_type ViewType.dynamic) ++
        vs.views.filter is_filtered_view).map roundtrip_abstract).map (fun v => (v.key, v))) [] hcontained
  have hobs_eq : d2.map (fun p => (p.1, p.2.obs)) =
      (((vs.views.filter (is_view_of_type ViewType.systemLandscape) ++
        vs.views.filter (is_view_of_type ViewType.systemContext) ++
        vs.views.filter (is_view_of_type ViewType.container) ++
        vs.views.filter (is_view_of_type ViewType.component) ++
        vs.views.filter (is_view_of_type ViewType.deployment) ++
        vs.views.filter (is_view_of_type ViewType.dynamic) ++
        vs.views.filter is_filtered_view).map roundtrip_abstract).map (fun v => (v.key, v))).map
        (fun p => (p.1, p.2.obs)) := by
    simpa using patchLoop_ok_keyobs _ [] d2 hd2
  refine ⟨{ views_map := d2, model := some m }, ?_, ?_, ?_⟩
  · simp only [ViewSet.hydrate, hpre, hvs1map, hd2]
    rfl
  · have hfst : d2.map Prod.fst = (((vs.views.filter (is_view_of_type ViewType.systemLandscape) ++
        vs.views.filter (is_view_of_type ViewType.systemContext) ++
        vs.views.filter (is_view_of_type ViewType.container) ++
        vs.views.filter (is_view_of_type ViewType.component) ++
        vs.views.filter (is_view_of_type ViewType.deployment) ++
        vs.views.filter (is_view_of_type ViewType.dynamic) ++
        vs.views.filter is_filtered_view).map roundtrip_abstract).map
        (fun v => (v.key, v))).map Prod.fst := by
      have h := congrArg (List.map Prod.fst) hobs_eq
      simpa [List.map_map] using h
    rw [hfst]
    exact hkeysd1
  · intro k
    have h1 := dictGet_obs_congr d2
      (((vs.views.filter (is_view_of_type ViewType.systemLandscape) ++
        vs.views.filter (is_view_of_type ViewType.systemContext) ++
        vs.views.filter (is_view_of_type ViewType.container) ++
        vs.views.filter (is_view_of_type ViewType.component) ++
        vs.views.filter (is_view_of_type ViewType.deployment) ++
        vs.views.filter (is_view_of_type ViewType.dynamic) ++
        vs.views.filter is_filtered_view).map roundtrip_abstract).map (fun v => (v.key, v))) hobs_eq k
    rw [h1, dictGet_map_pair, List.find?_map,
      show ((fun v : AbstractView => decide (v.key = k)) ∘ roundtrip_abstract) =
        (fun v : AbstractView => decide (v.key = k)) from
        funext (fun v => by simp [Function.comp, key_roundtrip]),
      find_key_perm (vs.views.filter (is_view_of_type ViewType.systemLandscape) ++
        vs.views.filter (is_view_of_type ViewType.systemContext) ++
        vs.views.filter (is_view_of_type ViewType.container) ++
        vs.views.filter (is_view_of_type ViewType.component) ++
        vs.views.filter (is_view_of_type ViewType.deployment) ++
        vs.views.filter (is_view_of_type ViewType.dynamic) ++
        vs.views.filter is_filtered_view) vs.views hperm hndviews k]
    have hrhs : dictGet vs.views_map k =
        vs.views.find? (fun v => decide (v.key = k)) := by
      conv_lhs => rw [wf_eq_map_pair vs.views_map hwf1]
      rw [dictGet_map_pair]
      rfl
    rw [hrhs]
    cases vs.views.find? (fun v => decide (v.key = k)) with
    | none => rfl
    | some v => simp [obs_roundtrip]

/-- Witness for C1: the round trip of a concrete set holding a landscape view
with element and relationship references and a filtered view over it. -/
theorem hydrate_serialize_roundtrip_witness :
    dictWF roundtripSet.views_map ∧
    roundtripSet.views.all (view_refs_resolve sampleModel) = true ∧
    roundtripSet.views.all (filtered_base_ok roundtripSet) = true ∧
    (∃ vs2, ViewSet.hydrate roundtripSet.serialize sampleModel =
        Except.ok vs2 ∧
      (vs2.views_map.map Prod.fst).Perm (roundtripSet.views_map.map Prod.fst) ∧
      ∀ k, (dictGet vs2.views_map k).map AbstractView.obs =
        (dictGet roundtripSet.views_map k).map AbstractView.obs) :=
  ⟨by decide, by rfl, by rfl,
    hydrate_serialize_roundtrip roundtripSet sampleModel (by decide) rfl rfl⟩

/-- C8: the typed iteration properties of `ViewSet` partition the stored views
by type: concatenated they are a permutation of the `views` property, every
stored concrete view appears in the property of its own type, and every stored
filtered view appears in `filtered_views` — regardless of insertion order. -/
theorem typed_views_partition (vs : ViewSet) :
    ((vs.system_landscape_views.map AbstractView.ofView ++
      vs.system_context_views.map AbstractView.ofView ++
      vs.container_views.map AbstractView.ofView ++
      vs.component_views.map AbstractView.ofView ++
      vs.deployment_views.map AbstractView.ofView ++
      vs.dynamic_views.map AbstractView.ofView ++
      vs.filtered_views.map (fun p => AbstractView.ofFiltered p.1 p.2)).Perm
      vs.views) ∧
    (∀ v : View, AbstractView.ofView v ∈ vs.views →
      v ∈ vs.get_typed_views v.vtype) ∧
    (∀ fv bound, AbstractView.ofFiltered fv bound ∈ vs.views →
      (fv, bound) ∈ vs.filtered_views) := by
  refine ⟨?_, ?_, ?_⟩
  · have h := views_partition_perm vs.views
    rw [ViewSet.system_landscape_views, ViewSet.system_context_views,
      ViewSet.container_views, ViewSet.component_views,
      ViewSet.deployment_views, ViewSet.dynamic_views,
      get_typed_views_map_eq, get_typed_views_map_eq, get_typed_views_map_eq,
      get_typed_views_map_eq, get_typed_views_map_eq, get_typed_views_map_eq,
      filtered_views_map_eq]
    simpa [view_partition_preds, List.append_assoc] using h
  · intro v hv
    exact List.mem_filterMap.mpr ⟨AbstractView.ofView v, hv, by simp⟩
  · intro fv bound h
    exact List.mem_filterMap.mpr ⟨AbstractView.ofFiltered fv bound, h, rfl⟩

/-- Witness for C8 at the one-view sample set. -/
theorem typed_views_partition_witness :
    AbstractView.ofView sampleLandscapeView ∈ sampleSet.views ∧
      sampleLandscapeView ∈
        sampleSet.get_typed_views sampleLandscapeView.vtype :=
  ⟨by simp [sampleSet, ViewSet.views],
    (typed_views_partition sampleSet).2.1 sampleLandscapeView
      (by simp [sampleSet, ViewSet.views])⟩

/-- Witness for C9: a set together with a keyless view and a keyless filtered
view, on which every create method raises and leaves the set unchanged. -/
theorem create_view_atomic_on_error_witness :
    (∃ e, sampleSet.ensure_key_is_specific_and_unique viewNoKey.key =
      Except.error e) ∧
    (∃ e, sampleSet.ensure_key_is_specific_and_unique filteredNoKey.key =
      Except.error e) ∧
    ((∃ e, sampleSet.create_system_landscape_view viewNoKey = Except.error e) ∧
      run_create sampleSet (sampleSet.create_system_landscape_view viewNoKey) =
        sampleSet) ∧
    ((∃ e, sampleSet.create_filtered_view filteredNoKey = Except.error e) ∧
      run_create sampleSet (sampleSet.create_filtered_view filteredNoKey) =
        sampleSet) := by
  have h := create_view_atomic_on_error sampleSet viewNoKey filteredNoKey
    ⟨PyError.valueError "A key must be specified.", rfl⟩
    ⟨PyError.valueError "A key must be specified.", rfl⟩
  exact ⟨⟨PyError.valueError "A key must be specified.", rfl⟩,
    ⟨PyError.valueError "A key must be specified.", rfl⟩,
    h.1, h.2.2.2.2.2.2.1⟩

end Structurizr
